import Mathlib

/-!
# ef10ct queue lifecycle: a shallow embedding of `src/lib/efhw/ef10ct.c`

The driver functions are embedded as pure functions over an explicit state.
Machine integers are `Int`/`Nat` values; where the C code converts or wraps
them the conversion is written out (`to_uint32`, `wrap_int`).
-/

namespace Ef10ct

/-! ## Machine integers -/

/-- Smallest value of a C `int` (32 bit). -/
def INT_MIN : Int := -(2 ^ 31)

/-- Largest value of a C `int` (32 bit). -/
def INT_MAX : Int := 2 ^ 31 - 1

/-- Value of an `int` after conversion to a 32-bit unsigned type. -/
def to_uint32 (x : Int) : Nat := (x % 2 ^ 32).toNat

/-- Two's-complement wrap of an integer into the range of `int`; the kernel's
`atomic_t` arithmetic wraps in this way. -/
def wrap_int (x : Int) : Int := (x + 2 ^ 31) % 2 ^ 32 - 2 ^ 31

/-- The sentinel `#define EFCT_EVQ_NO_TXQ -1`. -/
def EFCT_EVQ_NO_TXQ : Int := -1

/-! ## Data model -/

/-- State of a kernel `struct delayed_work`: not queued, or queued to run
after `delay` jiffies. -/
inductive delayed_work where
  | idle : delayed_work
  | pending (delay : Nat) : delayed_work
deriving DecidableEq, Repr

/-- Kernel `INIT_DELAYED_WORK`: the work item is (re)initialised, not queued. -/
def INIT_DELAYED_WORK : delayed_work := delayed_work.idle

/-- Kernel `schedule_delayed_work`: queues the work after `delay` unless it is
already pending, in which case nothing changes. -/
def schedule_delayed_work (w : delayed_work) (delay : Nat) : delayed_work :=
  match w with
  | delayed_work.idle => delayed_work.pending delay
  | delayed_work.pending d => delayed_work.pending d

/-- Kernel `cancel_delayed_work_sync`: on return the work is neither pending
nor running. -/
def cancel_delayed_work_sync (_w : delayed_work) : delayed_work := delayed_work.idle

/-- The per-EVQ record `struct efhw_nic_ef10ct_evq`, with the fields the
source reads and writes. `nic` is the back pointer (an address). -/
structure efhw_nic_ef10ct_evq where
  nic : Nat
  queues_flushing : Int
  check_flushes : delayed_work
  base : Nat
  capacity : Nat
  txq : Int
deriving DecidableEq, Repr

/-- Modelled from the spec: the declaration of `struct efhw_nic_ef10ct` is not
among the sources. The spec reads the range test of the constraint solver as
"outside `[0, N)`" for every slot, negative ones included, so `evq_n` is an
unsigned 32-bit count; `evq` is the table it counts. -/
structure efhw_nic_ef10ct where
  evq_n : Nat
  evq : List efhw_nic_ef10ct_evq
deriving DecidableEq, Repr

/-- The part of `struct efhw_nic` the functions use: its own address (what a
`struct efhw_nic *` to it holds) and `arch_extra`. -/
structure efhw_nic where
  self : Nat
  arch_extra : efhw_nic_ef10ct
deriving DecidableEq, Repr

/-- The `struct efhw_vi_constraints` argument, of which only `want_txq` is read. -/
structure efhw_vi_constraints where
  want_txq : Bool
deriving DecidableEq, Repr

/-- Read of `ef10ct->evq[i]` with an `int` index: `none` when the index is
outside the table. -/
def evq_read (ef10ct : efhw_nic_ef10ct) (i : Int) : Option efhw_nic_ef10ct_evq :=
  if 0 ≤ i then ef10ct.evq[i.toNat]? else none

/-- The C comparison `low < ef10ct->evq_n` of an `int` with the unsigned
`evq_n`: the `int` operand is converted to unsigned first. -/
def int_lt_evq_n (low : Int) (ef10ct : efhw_nic_ef10ct) : Bool :=
  decide (to_uint32 low < ef10ct.evq_n)

/-- Embedding of `ef10ct_accept_vi_constraints`. The first step is the argument
of the `EFHW_ERR` trace line, which reads `evq[low].txq` under the same range
test. `none` stands for a read outside the table. -/
def ef10ct_accept_vi_constraints (nic : efhw_nic) (low : Int) (_order : Nat)
    (vc : efhw_vi_constraints) : Option Bool :=
  let ef10ct := nic.arch_extra
  let traced : Option Int :=
    if int_lt_evq_n low ef10ct then (evq_read ef10ct low).map (fun e => e.txq)
    else some (-1)
  match traced with
  | none => none
  | some _ =>
    if vc.want_txq then
      if int_lt_evq_n low ef10ct then
        (evq_read ef10ct low).map (fun e => decide (e.txq ≠ EFCT_EVQ_NO_TXQ))
      else
        some false
    else
      some (!(int_lt_evq_n low ef10ct))

/-- Well-formed adapter table: `evq` has exactly `evq_n` records and the count
fits the `int` ids used to index it. -/
def table_ok (ef10ct : efhw_nic_ef10ct) : Prop :=
  ef10ct.evq.length = ef10ct.evq_n ∧ (ef10ct.evq_n : Int) ≤ INT_MAX

instance (ef10ct : efhw_nic_ef10ct) : Decidable (table_ok ef10ct) := by
  unfold table_ok; exact inferInstance

/-! ## Error numbers (Linux `errno` values) -/

def ENOMEM : Int := 12
def EBUSY : Int := 16
def ENODEV : Int := 19
def EINVAL : Int := 22
def ENOSYS : Int := 38
def EOPNOTSUPP : Int := 95

/-! ## State of the simulated device (`efct_test_ops.c`) -/

/-- The fields of `struct efct_test_evq` that the handlers use; `txqs` is the
bitmask of bound TXQ slots. -/
structure efct_test_evq where
  inited : Bool
  txqs : Nat
  q_base : Nat
  entries : Nat
  ptr : Nat
  mask : Int
deriving DecidableEq, Repr

/-- The fields of `struct efct_test_txq` that the handlers use; `evq < 0`
means unbound, `ctpio` is the aperture address. The back pointer `tdev` is
left out. -/
structure efct_test_txq where
  evq : Int
  ctpio : Nat
  ptr : Nat
  pkt_ctr : Nat
  timer_running : Int
  timer : delayed_work
deriving DecidableEq, Repr

/-- The queue tables of `struct efct_test_device`. -/
structure efct_test_device where
  evqs : List efct_test_evq
  txqs : List efct_test_txq
deriving DecidableEq, Repr

/-! ## Constants and kernel helpers that the sources use but do not define -/

/-- Values the two source files take from headers that are not among the
sources, and the kernel address helpers. `NDEBUG` is the build switch that the
source itself tests (`#ifndef NDEBUG`): when set, `EFHW_ASSERT` compiles to
nothing. `kmalloc` is the result of the next page allocation (`none` for
`NULL`); `evq_push_tx_flush_complete` is the event writer of the simulated
device, which lives in another file. -/
structure Config where
  NDEBUG : Bool
  PAGE_SHIFT : Nat
  EFHW_NIC_PAGES_IN_OS_PAGE : Nat
  CI_PAGE_SIZE : Nat
  EFHW_NIC_PAGE_SIZE : Nat
  sizeof_efhw_event_t : Nat
  EFHW_VI_TX_TIMESTAMPS : Nat
  CI_CFG_TIME_SYNC_EVENT_EVQ_CAPACITY : Nat
  sizeof_evq_params : Nat
  sizeof_txq_params : Nat
  phys_to_virt : Nat → Nat
  pfn_to_page : Nat → Nat
  page_to_virt : Nat → Nat
  EFCT_TEST_TXQS_N : Nat
  kmalloc : Option Nat
  evq_push_tx_flush_complete : efct_test_evq → Int → efct_test_evq

/-- The C `sizeof(int)` on the kernel's targets. -/
def sizeof_int : Nat := 4

/-! ## Firmware RPC -/

/-- Command codes of `mc_driver_pcol.h` that the sources name; the four are
distinct case labels of one `switch`. -/
inductive mc_cmd where
  | MC_CMD_INIT_EVQ : mc_cmd
  | MC_CMD_FINI_EVQ : mc_cmd
  | MC_CMD_INIT_TXQ : mc_cmd
  | MC_CMD_FINI_TXQ : mc_cmd
  | other (code : Nat) : mc_cmd
deriving DecidableEq, Repr

/-- The `struct efx_auxiliary_evq_params` initialiser of the enable path. -/
structure efx_auxiliary_evq_params where
  qid : Int
  entries : Nat
  q_page : Nat
  page_offset : Nat
  q_size : Nat
  subscribe_time_sync : Nat
  unsol_credit : Int
deriving DecidableEq, Repr

/-- The `struct efx_auxiliary_txq_params` initialiser of the TXQ init path. -/
structure efx_auxiliary_txq_params where
  evq : Int
  qid : Int
  label : Int
deriving DecidableEq, Repr

/-- What `rpc->inbuf` points to. -/
inductive rpc_buf where
  | evq_params (p : efx_auxiliary_evq_params) : rpc_buf
  | txq_params (p : efx_auxiliary_txq_params) : rpc_buf
  | int_val (v : Int) : rpc_buf
deriving DecidableEq, Repr

/-- The `struct efx_auxiliary_rpc` command block. -/
structure efx_auxiliary_rpc where
  cmd : mc_cmd
  inlen : Nat
  inbuf : rpc_buf
  outlen : Nat
deriving DecidableEq, Repr

/-- Driver state, device state and the trace of the commands handed to
`ef10ct_fw_rpc`, oldest first. -/
structure World (σ : Type) where
  nic : efhw_nic
  dev : σ
  rpcs : List efx_auxiliary_rpc
deriving DecidableEq, Repr

/-- Ways in which a call stops without returning. -/
inductive Fault where
  | assertion : Fault
  | out_of_bounds : Fault
  | device : Fault
deriving DecidableEq, Repr

/-- Result of a driver call: it returns `v` in world `w`, or it stops with a
fault in world `w`. -/
inductive Outcome (α σ : Type) where
  | ret (v : α) (w : World σ) : Outcome α σ
  | halt (f : Fault) (w : World σ) : Outcome α σ
deriving DecidableEq, Repr

/-- The device operation behind `edev->ops->fw_rpc`, bracketed by `EFCT_PRE`
and `EFCT_POST` (whose definitions are not among the sources): status and next
device state, or `none` when the call does not return. -/
abbrev FwOps (σ : Type) := σ → efx_auxiliary_rpc → Option (Int × σ)

/-- Embedding of `ef10ct_fw_rpc`: the command is handed to the device. -/
def ef10ct_fw_rpc {σ : Type} (ops : FwOps σ) (w : World σ) (cmd : efx_auxiliary_rpc) :
    Outcome Int σ :=
  let w1 : World σ := { w with rpcs := w.rpcs ++ [cmd] }
  match ops w.dev cmd with
  | none => Outcome.halt Fault.device w1
  | some (rc, d) => Outcome.ret rc { w1 with dev := d }

/-- Write through `&ef10ct->evq[i]`: `none` when the slot is outside the table. -/
def evq_modify (ef10ct : efhw_nic_ef10ct) (i : Nat)
    (f : efhw_nic_ef10ct_evq → efhw_nic_ef10ct_evq) : Option efhw_nic_ef10ct :=
  match ef10ct.evq[i]? with
  | none => none
  | some e => some { ef10ct with evq := ef10ct.evq.set i (f e) }

/-- World with the EVQ table replaced. -/
def World.with_table {σ : Type} (w : World σ) (t : efhw_nic_ef10ct) : World σ :=
  { w with nic := { w.nic with arch_extra := t } }

/-! ## Event queue enable and disable -/

/-- The `struct efhw_evq_params` fields the enable path reads. `dma_addrs` is
the caller's array seen through its pointer. -/
structure efhw_evq_params where
  evq : Nat
  evq_size : Nat
  dma_addrs : Nat → Nat
  n_pages : Nat
  flags : Nat

/-- The initialiser of `qparams` in `ef10ct_nic_event_queue_enable`. The
declared widths of the fields are not among the sources; the product is taken
without wrap-around. -/
def enable_qparams (k : Config) (p : efhw_evq_params) : efx_auxiliary_evq_params :=
  { qid := (p.evq : Int)
    entries := p.evq_size
    q_page := k.pfn_to_page (p.dma_addrs 0 >>> k.PAGE_SHIFT)
    page_offset := 0
    q_size := p.evq_size * k.sizeof_efhw_event_t
    subscribe_time_sync := p.flags &&& k.EFHW_VI_TX_TIMESTAMPS
    unsol_credit :=
      if p.flags &&& k.EFHW_VI_TX_TIMESTAMPS ≠ 0
      then (k.CI_CFG_TIME_SYNC_EVENT_EVQ_CAPACITY : Int) - 1 else 0 }

/-- Condition of the first `EFHW_ASSERT` of the enable path: the pages cover
the ring. -/
def region_large_enough (k : Config) (p : efhw_evq_params) : Bool :=
  decide (p.n_pages * k.EFHW_NIC_PAGES_IN_OS_PAGE * k.CI_PAGE_SIZE ≥ (enable_qparams k p).q_size)

/-- Condition of the asserts in the `#ifndef NDEBUG` loop: consecutive 64-bit
DMA addresses differ by one NIC page. -/
def region_contiguous (k : Config) (p : efhw_evq_params) : Bool :=
  (List.range (p.n_pages - 1)).all fun j =>
    decide ((p.dma_addrs (j + 1) + 2 ^ 64 - p.dma_addrs j) % 2 ^ 64 = k.EFHW_NIC_PAGE_SIZE)

/-- The command block built by the enable path. -/
def init_evq_cmd (k : Config) (p : efhw_evq_params) : efx_auxiliary_rpc :=
  { cmd := mc_cmd.MC_CMD_INIT_EVQ
    inlen := k.sizeof_evq_params
    inbuf := rpc_buf.evq_params (enable_qparams k p)
    outlen := 0 }

/-- The record written by the enable path on RPC success. -/
def enabled_evq (k : Config) (nic : efhw_nic) (p : efhw_evq_params)
    (e : efhw_nic_ef10ct_evq) : efhw_nic_ef10ct_evq :=
  { e with
    nic := nic.self
    base := k.phys_to_virt (p.dma_addrs 0)
    capacity := p.evq_size
    queues_flushing := 0
    check_flushes := INIT_DELAYED_WORK }

/-- Embedding of `ef10ct_nic_event_queue_enable`. -/
def ef10ct_nic_event_queue_enable {σ : Type} (k : Config) (ops : FwOps σ) (w : World σ)
    (efhw_params : efhw_evq_params) : Outcome Int σ :=
  let ef10ct := w.nic.arch_extra
  if efhw_params.evq ≥ ef10ct.evq_n then
    Outcome.ret 0 w
  else if !k.NDEBUG && !region_large_enough k efhw_params then
    Outcome.halt Fault.assertion w
  else if !k.NDEBUG && !region_contiguous k efhw_params then
    Outcome.halt Fault.assertion w
  else
    match ef10ct_fw_rpc ops w (init_evq_cmd k efhw_params) with
    | Outcome.halt f w1 => Outcome.halt f w1
    | Outcome.ret rc w1 =>
      if rc = 0 then
        match evq_modify w1.nic.arch_extra efhw_params.evq (enabled_evq k w1.nic efhw_params) with
        | none => Outcome.halt Fault.out_of_bounds w1
        | some t => Outcome.ret rc (w1.with_table t)
      else
        Outcome.ret rc w1

/-- The command block built by the disable path. -/
def fini_evq_cmd (evq : Nat) : efx_auxiliary_rpc :=
  { cmd := mc_cmd.MC_CMD_FINI_EVQ
    inlen := sizeof_int
    inbuf := rpc_buf.int_val (evq : Int)
    outlen := 0 }

/-- The record left by the disable path: sentinel set, scanner cancelled. -/
def disabled_evq (e : efhw_nic_ef10ct_evq) : efhw_nic_ef10ct_evq :=
  { e with
    queues_flushing := -1
    check_flushes := cancel_delayed_work_sync e.check_flushes }

/-- Embedding of `ef10ct_nic_event_queue_disable` (a `void` function; the
status of the fini RPC is dropped). -/
def ef10ct_nic_event_queue_disable {σ : Type} (ops : FwOps σ) (w : World σ)
    (evq : Nat) (_time_sync_events_enabled : Int) : Outcome Unit σ :=
  let ef10ct := w.nic.arch_extra
  if evq ≥ ef10ct.evq_n then
    Outcome.ret () w
  else
    match evq_modify ef10ct evq disabled_evq with
    | none => Outcome.halt Fault.out_of_bounds w
    | some t =>
      match ef10ct_fw_rpc ops (w.with_table t) (fini_evq_cmd evq) with
      | Outcome.halt f w1 => Outcome.halt f w1
      | Outcome.ret _ w1 => Outcome.ret () w1

/-! ## Transmit queue init and flush -/

/-- The `struct efhw_dmaq_params` fields the TXQ init path uses; `qid_out` is
`tx.qid_out`, holding whatever the caller left there. -/
structure efhw_dmaq_params where
  evq : Nat
  tag : Int
  qid_out : Int
deriving DecidableEq, Repr

/-- The command block built by the TXQ init path. -/
def init_txq_cmd (k : Config) (params : efx_auxiliary_txq_params) : efx_auxiliary_rpc :=
  { cmd := mc_cmd.MC_CMD_INIT_TXQ
    inlen := k.sizeof_txq_params
    inbuf := rpc_buf.txq_params params
    outlen := k.sizeof_txq_params }

/-- Embedding of `ef10ct_dmaq_tx_q_init`. The initialiser of `params` reads
`ef10ct->evq[evq].txq` before the asserts run. The value returned is the
literal `0` of the final `return`. -/
def ef10ct_dmaq_tx_q_init {σ : Type} (k : Config) (ops : FwOps σ) (w : World σ)
    (txq_params : efhw_dmaq_params) : Outcome (Int × efhw_dmaq_params) σ :=
  let ef10ct := w.nic.arch_extra
  match ef10ct.evq[txq_params.evq]? with
  | none => Outcome.halt Fault.out_of_bounds w
  | some ef10ct_evq =>
    let params : efx_auxiliary_txq_params :=
      { evq := (txq_params.evq : Int), qid := ef10ct_evq.txq, label := txq_params.tag }
    if !k.NDEBUG && !decide (txq_params.evq < ef10ct.evq_n) then
      Outcome.halt Fault.assertion w
    else if !k.NDEBUG && !decide (params.qid ≠ EFCT_EVQ_NO_TXQ) then
      Outcome.halt Fault.assertion w
    else
      match ef10ct_fw_rpc ops w (init_txq_cmd k params) with
      | Outcome.halt f w1 => Outcome.halt f w1
      | Outcome.ret rc w1 =>
        let updated : efhw_dmaq_params × Int :=
          if rc ≥ 0 then ({ txq_params with qid_out := rc }, 0) else (txq_params, rc)
        Outcome.ret (0, updated.1) w1

/-- The command block built by the TX flush path. -/
def fini_txq_cmd (dmaq : Nat) : efx_auxiliary_rpc :=
  { cmd := mc_cmd.MC_CMD_FINI_TXQ
    inlen := sizeof_int
    inbuf := rpc_buf.int_val (dmaq : Int)
    outlen := 0 }

/-- The record after `atomic_inc` and `schedule_delayed_work(.., 0)`. -/
def flush_requested_evq (e : efhw_nic_ef10ct_evq) : efhw_nic_ef10ct_evq :=
  { e with
    queues_flushing := wrap_int (e.queues_flushing + 1)
    check_flushes := schedule_delayed_work e.check_flushes 0 }

/-- Embedding of `ef10ct_flush_tx_dma_channel`. -/
def ef10ct_flush_tx_dma_channel {σ : Type} (ops : FwOps σ) (w : World σ)
    (dmaq evq : Nat) : Outcome Int σ :=
  match ef10ct_fw_rpc ops w (fini_txq_cmd dmaq) with
  | Outcome.halt f w1 => Outcome.halt f w1
  | Outcome.ret rc w1 =>
    match evq_modify w1.nic.arch_extra evq flush_requested_evq with
    | none => Outcome.halt Fault.out_of_bounds w1
    | some t => Outcome.ret rc (w1.with_table t)

/-- The flush path called once for each queue id of `dmaqs`, in order, on the
same EVQ; a call that stops ends the sequence. -/
def flush_tx_each {σ : Type} (ops : FwOps σ) (evq : Nat) :
    List Nat → World σ → Outcome Unit σ
  | [], w => Outcome.ret () w
  | dmaq :: rest, w =>
    match ef10ct_flush_tx_dma_channel ops w dmaq evq with
    | Outcome.halt f w1 => Outcome.halt f w1
    | Outcome.ret _ w1 => flush_tx_each ops evq rest w1

/-! ## The simulated firmware (`efct_test_ops.c`) -/

/-- Read of `tdev->evqs[i]` with an `int` index. -/
def test_evq_read (tdev : efct_test_device) (i : Int) : Option efct_test_evq :=
  if 0 ≤ i then tdev.evqs[i.toNat]? else none

/-- Read of `tdev->txqs[i]` with an `int` index. -/
def test_txq_read (tdev : efct_test_device) (i : Int) : Option efct_test_txq :=
  if 0 ≤ i then tdev.txqs[i.toNat]? else none

/-- Embedding of `efct_test_init_evq`. `none`: an access outside the table or
the `BUG_ON`. -/
def efct_test_init_evq (k : Config) (tdev : efct_test_device)
    (params : efx_auxiliary_evq_params) : Option (Int × efct_test_device) :=
  match test_evq_read tdev params.qid with
  | none => none
  | some evq =>
    if evq.inited then some (-EBUSY, tdev)
    else if evq.txqs ≠ 0 then none
    else
      let evq1 : efct_test_evq :=
        { evq with
          inited := true
          q_base := k.page_to_virt params.q_page
          entries := params.entries
          ptr := 0
          mask := (params.entries : Int) - 1 }
      some (0, { tdev with evqs := tdev.evqs.set params.qid.toNat evq1 })

/-- Embedding of `efct_test_free_evq`; the two `WARN`s only log. -/
def efct_test_free_evq (tdev : efct_test_device) (evq : Int) : Option efct_test_device :=
  match test_evq_read tdev evq with
  | none => none
  | some e => some { tdev with evqs := tdev.evqs.set evq.toNat { e with inited := false } }

/-- The search loop of `efct_test_init_txq`: first slot `i` in `[i, i + fuel)`
with `txqs[i].evq < 0`, or `-1`; `none` for a read outside the table. -/
def find_unbound_txq (txqs : List efct_test_txq) : Nat → Nat → Option Int
  | 0, _ => some (-1)
  | fuel + 1, i =>
    match txqs[i]? with
    | none => none
    | some t => if t.evq < 0 then some (i : Int) else find_unbound_txq txqs fuel (i + 1)

/-- Embedding of `efct_test_init_txq`. The bound-slot work timer is scheduled
with delay 100. -/
def efct_test_init_txq (k : Config) (tdev : efct_test_device)
    (params : efx_auxiliary_txq_params) : Option (Int × efct_test_device) :=
  let evq := params.evq
  match test_evq_read tdev evq with
  | none => none
  | some e =>
    if !e.inited then some (-EINVAL, tdev)
    else
      match find_unbound_txq tdev.txqs k.EFCT_TEST_TXQS_N 0 with
      | none => none
      | some txq_idx =>
        if txq_idx < 0 then some (-EBUSY, tdev)
        else
          match tdev.txqs[txq_idx.toNat]? with
          | none => none
          | some txq =>
            match k.kmalloc with
            | none => some (-ENOMEM, { tdev with txqs := tdev.txqs.set txq_idx.toNat { txq with ctpio := 0 } })
            | some addr =>
              let txq1 : efct_test_txq :=
                { txq with
                  ctpio := addr
                  timer_running := 1
                  timer := schedule_delayed_work INIT_DELAYED_WORK 100
                  evq := evq
                  ptr := 0
                  pkt_ctr := 0 }
              let e1 : efct_test_evq := { e with txqs := e.txqs ||| (1 <<< txq_idx.toNat) }
              some (txq_idx,
                { evqs := tdev.evqs.set evq.toNat e1
                  txqs := tdev.txqs.set txq_idx.toNat txq1 })

/-- Embedding of `efct_test_free_txq`; the `WARN` only logs, so an unbound
slot goes on to index `evqs` with `-1`. -/
def efct_test_free_txq (k : Config) (tdev : efct_test_device) (txq_idx : Int) :
    Option efct_test_device :=
  match test_txq_read tdev txq_idx with
  | none => none
  | some txq =>
    let evq := txq.evq
    let txq1 : efct_test_txq :=
      { txq with timer_running := 0, timer := cancel_delayed_work_sync txq.timer }
    match test_evq_read tdev evq with
    | none => none
    | some e =>
      let e1 := k.evq_push_tx_flush_complete e txq_idx
      let e2 : efct_test_evq :=
        { e1 with txqs := e1.txqs ^^^ (e1.txqs &&& (1 <<< txq_idx.toNat)) }
      some
        { evqs := tdev.evqs.set evq.toNat e2
          txqs := tdev.txqs.set txq_idx.toNat { txq1 with evq := -1 } }

/-- Embedding of `efct_test_fw_rpc`. A buffer of the expected length that does
not hold the expected payload has no defined reading (`none`). -/
def efct_test_fw_rpc (k : Config) : FwOps efct_test_device :=
  fun tdev rpc =>
    match rpc.cmd with
    | mc_cmd.MC_CMD_INIT_EVQ =>
      if rpc.inlen ≠ k.sizeof_evq_params then some (-EINVAL, tdev)
      else
        match rpc.inbuf with
        | rpc_buf.evq_params p => efct_test_init_evq k tdev p
        | _ => none
    | mc_cmd.MC_CMD_FINI_EVQ =>
      if rpc.inlen ≠ sizeof_int then some (-EINVAL, tdev)
      else
        match rpc.inbuf with
        | rpc_buf.int_val v => (efct_test_free_evq tdev v).map fun d => (0, d)
        | _ => none
    | mc_cmd.MC_CMD_INIT_TXQ =>
      if rpc.inlen ≠ k.sizeof_txq_params then some (-EINVAL, tdev)
      else
        match rpc.inbuf with
        | rpc_buf.txq_params p => efct_test_init_txq k tdev p
        | _ => none
    | mc_cmd.MC_CMD_FINI_TXQ =>
      if rpc.inlen ≠ sizeof_int then some (-EINVAL, tdev)
      else
        match rpc.inbuf with
        | rpc_buf.int_val v => (efct_test_free_txq k tdev v).map fun d => (0, d)
        | _ => none
    | mc_cmd.other _ => some (-ENOSYS, tdev)

/-! ## Observations and sample states -/

/-- The world in which a call ended, whether it returned or stopped. -/
def Outcome.world {α σ : Type} : Outcome α σ → World σ
  | Outcome.ret _ w => w
  | Outcome.halt _ w => w

/-- A firmware that answers every command with the same status. -/
def fw_const (rc : Int) : FwOps Unit := fun d _ => some (rc, d)

/-- A sample configuration: 4 KiB pages, 8-byte events, identity address
maps, twelve simulated TXQ slots; the event writer of the simulated device is
a stand-in that advances the write pointer. -/
def sample_config (ndebug : Bool) : Config :=
  { NDEBUG := ndebug
    PAGE_SHIFT := 12
    EFHW_NIC_PAGES_IN_OS_PAGE := 1
    CI_PAGE_SIZE := 4096
    EFHW_NIC_PAGE_SIZE := 4096
    sizeof_efhw_event_t := 8
    EFHW_VI_TX_TIMESTAMPS := 1024
    CI_CFG_TIME_SYNC_EVENT_EVQ_CAPACITY := 64
    sizeof_evq_params := 40
    sizeof_txq_params := 12
    phys_to_virt := fun a => a
    pfn_to_page := fun a => a
    page_to_virt := fun a => a
    EFCT_TEST_TXQS_N := 2
    kmalloc := some 8192
    evq_push_tx_flush_complete := fun e _ => { e with ptr := e.ptr + 1 } }

/-- A two-EVQ adapter: EVQ 0 owns TXQ 0, EVQ 1 has no TXQ. -/
def sample_nic : efhw_nic :=
  { self := 64
    arch_extra :=
      { evq_n := 2
        evq := [⟨0, 0, delayed_work.idle, 0, 0, 0⟩, ⟨0, 0, delayed_work.idle, 0, 0, -1⟩] } }

/-- A simulated device with two uninitialised EVQs and two unbound TXQ slots. -/
def sample_device : efct_test_device :=
  { evqs := [⟨false, 0, 0, 0, 0, 0⟩, ⟨false, 0, 0, 0, 0, 0⟩]
    txqs := [⟨-1, 0, 0, 0, 0, delayed_work.idle⟩, ⟨-1, 0, 0, 0, 0, delayed_work.idle⟩] }

/-- The sample adapter on the sample device, before any command. -/
def sample_world : World efct_test_device :=
  { nic := sample_nic, dev := sample_device, rpcs := [] }

/-- The sample adapter on a firmware that is not modelled further. -/
def sample_world_unit : World Unit :=
  { nic := sample_nic, dev := (), rpcs := [] }

/-- An enable request for EVQ 0: `evq_size` entries in `n_pages` contiguous
pages starting at physical address `0x100000`. -/
def sample_evq_params (evq_size n_pages : Nat) : efhw_evq_params :=
  { evq := 0
    evq_size := evq_size
    dma_addrs := fun i => 1048576 + 4096 * i
    n_pages := n_pages
    flags := 0 }

/-- The sample device after both EVQs have been initialised with 4 entries. -/
def sample_device_inited : efct_test_device :=
  { sample_device with evqs := [⟨true, 0, 0, 4, 0, 3⟩, ⟨true, 0, 0, 4, 0, 3⟩] }

/-- The sample adapter on the initialised sample device. -/
def sample_world_inited : World efct_test_device :=
  { sample_world with dev := sample_device_inited }

/-! ## The flush-completion scanner -/

/-- Positions, widths and code points of the event fields that the scanner
tests. They come from the hardware definitions header, which is not among the
sources. -/
structure EventFormat where
  EFCT_EVENT_TYPE_LBN : Nat
  EFCT_EVENT_TYPE_WIDTH : Nat
  EFCT_EVENT_TYPE_CONTROL : Nat
  EFCT_CTRL_SUBTYPE_LBN : Nat
  EFCT_CTRL_SUBTYPE_WIDTH : Nat
  EFCT_CTRL_EV_FLUSH : Nat
  EFCT_FLUSH_TYPE_LBN : Nat
  EFCT_FLUSH_TYPE_WIDTH : Nat
  EFCT_FLUSH_TYPE_TX : Nat
  EFCT_FLUSH_QUEUE_ID_LBN : Nat
  EFCT_FLUSH_QUEUE_ID_WIDTH : Nat
deriving DecidableEq, Repr

/-- The bit field of a quad word that `CI_QWORD_FIELD` extracts: `width` bits
from bit `lbn` up. -/
def CI_QWORD_FIELD (q lbn width : Nat) : Nat := (q >>> lbn) % 2 ^ width

/-- The three-way test of the scan loop: event type is control, control
subtype is flush, flush type is TX. -/
def is_tx_flush (f : EventFormat) (q : Nat) : Bool :=
  decide (CI_QWORD_FIELD q f.EFCT_EVENT_TYPE_LBN f.EFCT_EVENT_TYPE_WIDTH
      = f.EFCT_EVENT_TYPE_CONTROL) &&
  decide (CI_QWORD_FIELD q f.EFCT_CTRL_SUBTYPE_LBN f.EFCT_CTRL_SUBTYPE_WIDTH
      = f.EFCT_CTRL_EV_FLUSH) &&
  decide (CI_QWORD_FIELD q f.EFCT_FLUSH_TYPE_LBN f.EFCT_FLUSH_TYPE_WIDTH
      = f.EFCT_FLUSH_TYPE_TX)

/-- The value the scanner stores in `int txq`: the queue-id field of the event. -/
def flush_queue_id (f : EventFormat) (q : Nat) : Int :=
  wrap_int (CI_QWORD_FIELD q f.EFCT_FLUSH_QUEUE_ID_LBN f.EFCT_FLUSH_QUEUE_ID_WIDTH : Nat)

/-- The scan loop of `ef10ct_check_for_flushes`: `ring i` is the quad word
`i` entries after `evq->base`; the loop looks at entries `i, i + 1, ..` for
`fuel` steps and stops at the first TX flush event, whose index it yields. -/
def scan_ring (f : EventFormat) (ring : Nat → Nat) : Nat → Nat → Option Nat
  | 0, _ => none
  | fuel + 1, i => if is_tx_flush f (ring i) then some i else scan_ring f ring fuel (i + 1)

/-- What one call of the work function leaves behind: the EVQ record, the
calls of `efhw_handle_txdmaq_flushed` it made (adapter, queue id), and the
delay it passed to `schedule_delayed_work`, if it called it. -/
structure ScanResult where
  evq : efhw_nic_ef10ct_evq
  upcalls : List (Nat × Int)
  resched : Option Nat
deriving DecidableEq, Repr

/-- Embedding of `ef10ct_check_for_flushes`. `atomic_dec_and_test` is reached
only when a flush event was found (`||` evaluates its right operand only if
the left one is false). -/
def ef10ct_check_for_flushes (f : EventFormat) (evq : efhw_nic_ef10ct_evq)
    (ring : Nat → Nat) : ScanResult :=
  if evq.queues_flushing < 0 then
    { evq := evq, upcalls := [], resched := none }
  else
    match scan_ring f ring evq.capacity 0 with
    | none =>
      { evq := { evq with check_flushes := schedule_delayed_work evq.check_flushes 100 }
        upcalls := []
        resched := some 100 }
    | some i =>
      let txq := flush_queue_id f (ring i)
      let counter := wrap_int (evq.queues_flushing - 1)
      if counter = 0 then
        { evq := { evq with queues_flushing := counter }
          upcalls := [(evq.nic, txq)]
          resched := none }
      else
        { evq := { evq with
                   queues_flushing := counter
                   check_flushes := schedule_delayed_work evq.check_flushes 100 }
          upcalls := [(evq.nic, txq)]
          resched := some 100 }

/-- One run of the scanner by the work queue, which clears the pending state
of the work item before it calls the work function. -/
def check_flushes_run (f : EventFormat) (evq : efhw_nic_ef10ct_evq) (ring : Nat → Nat) :
    ScanResult :=
  ef10ct_check_for_flushes f { evq with check_flushes := delayed_work.idle } ring

/-- Sequential runs of the scanner on one EVQ, one for each ring content of
the list; the results are listed in order. -/
def check_flushes_runs (f : EventFormat) :
    efhw_nic_ef10ct_evq → List (Nat → Nat) → List ScanResult
  | _, [] => []
  | evq, ring :: rest =>
    (check_flushes_run f evq ring) ::
      check_flushes_runs f (check_flushes_run f evq ring).evq rest

/-- A sample event format: type in bits 60..63 (control = 3), subtype in bits
53..58 (flush = 2), flush type in bits 8..11 (TX = 1), queue id in bits 0..7. -/
def sample_format : EventFormat :=
  { EFCT_EVENT_TYPE_LBN := 60
    EFCT_EVENT_TYPE_WIDTH := 4
    EFCT_EVENT_TYPE_CONTROL := 3
    EFCT_CTRL_SUBTYPE_LBN := 53
    EFCT_CTRL_SUBTYPE_WIDTH := 6
    EFCT_CTRL_EV_FLUSH := 2
    EFCT_FLUSH_TYPE_LBN := 8
    EFCT_FLUSH_TYPE_WIDTH := 4
    EFCT_FLUSH_TYPE_TX := 1
    EFCT_FLUSH_QUEUE_ID_LBN := 0
    EFCT_FLUSH_QUEUE_ID_WIDTH := 8 }

/-- The TX flush event for queue `qid` in the sample format. -/
def sample_flush_event (qid : Nat) : Nat := 3 * 2 ^ 60 + 2 * 2 ^ 53 + 1 * 2 ^ 8 + qid

/-- A ring that holds the flush event for queue `qid` at `slot` and zero
elsewhere. -/
def sample_ring (slot qid : Nat) : Nat → Nat :=
  fun i => if i = slot then sample_flush_event qid else 0

/-- An enabled EVQ record with 4 entries and `c` flushes outstanding. -/
def sample_evq (c : Int) : efhw_nic_ef10ct_evq :=
  { nic := 64, queues_flushing := c, check_flushes := delayed_work.pending 0,
    base := 1048576, capacity := 4, txq := 0 }

/-! ## Operations without hardware action -/

/-- Embedding of `ef10ct_dmaq_rx_q_init`: `return 0`. -/
def ef10ct_dmaq_rx_q_init {σ P : Type} (w : World σ) (_client_id : Nat) (_params : P) :
    Outcome Int σ :=
  Outcome.ret 0 w

/-- Embedding of `ef10ct_flush_rx_dma_channel`: `return -ENOSYS`. -/
def ef10ct_flush_rx_dma_channel {σ : Type} (w : World σ) (_client_id : Nat) (_dmaq : Nat) :
    Outcome Int σ :=
  Outcome.ret (-ENOSYS) w

/-- Embedding of `ef10ct_filter_insert`: `return 0`; `*rxq` is not written. -/
def ef10ct_filter_insert {σ S M : Type} (w : World σ) (_spec : S) (_rxq : Int)
    (_pd_excl_token : Nat) (_mask : M) (_flags : Nat) : Outcome Int σ :=
  Outcome.ret 0 w

/-- Embedding of `ef10ct_filter_redirect`: `return -ENOSYS`. -/
def ef10ct_filter_redirect {σ S : Type} (w : World σ) (_filter_id : Int) (_spec : S) :
    Outcome Int σ :=
  Outcome.ret (-ENOSYS) w

/-- Embedding of `ef10ct_filter_query`: `return -EOPNOTSUPP`; `*info` is not
written. -/
def ef10ct_filter_query {σ I : Type} (w : World σ) (_filter_id : Int) (_info : I) :
    Outcome Int σ :=
  Outcome.ret (-EOPNOTSUPP) w

/-- Embedding of `ef10ct_multicast_block`: `return -ENOSYS`. -/
def ef10ct_multicast_block {σ : Type} (w : World σ) (_block : Bool) : Outcome Int σ :=
  Outcome.ret (-ENOSYS) w

/-- Embedding of `ef10ct_unicast_block`: `return -ENOSYS`. -/
def ef10ct_unicast_block {σ : Type} (w : World σ) (_block : Bool) : Outcome Int σ :=
  Outcome.ret (-ENOSYS) w

/-! ## Design parameters -/

/-- The six parameters that `ef10ct_design_parameters` sets, in source order. -/
inductive dp_param where
  | rx_superbuf_bytes : dp_param
  | rx_frame_offset : dp_param
  | tx_aperture_bytes : dp_param
  | tx_fifo_bytes : dp_param
  | timestamp_subnano_bits : dp_param
  | unsol_credit_seq_mask : dp_param
deriving DecidableEq, Repr

/-- The caller's `struct efab_nic_design_parameters`: the size it declares to
know and the six value fields. -/
structure efab_nic_design_parameters where
  known_size : Nat
  rx_superbuf_bytes : Int
  rx_frame_offset : Int
  tx_aperture_bytes : Int
  tx_fifo_bytes : Int
  timestamp_subnano_bits : Int
  unsol_credit_seq_mask : Int
deriving DecidableEq, Repr

/-- The macros and constants of the design-parameter interface, whose
definitions are not among the sources. `EFAB_NIC_DP_KNOWN` is taken to test the
size the caller declares (`known_size`), which no assignment of `SET` changes;
`EFAB_NIC_DP_DEFAULT` is the value an older caller assumes. -/
structure DpEnv where
  EFAB_NIC_DP_KNOWN : Nat → dp_param → Bool
  EFAB_NIC_DP_DEFAULT : dp_param → Int
  EFCT_RX_SUPERBUF_BYTES : Int
  EFCT_RX_HEADER_NEXT_FRAME_LOC_1 : Int

/-- Read of `dp->PARAM`. -/
def dp_get (dp : efab_nic_design_parameters) : dp_param → Int
  | dp_param.rx_superbuf_bytes => dp.rx_superbuf_bytes
  | dp_param.rx_frame_offset => dp.rx_frame_offset
  | dp_param.tx_aperture_bytes => dp.tx_aperture_bytes
  | dp_param.tx_fifo_bytes => dp.tx_fifo_bytes
  | dp_param.timestamp_subnano_bits => dp.timestamp_subnano_bits
  | dp_param.unsol_credit_seq_mask => dp.unsol_credit_seq_mask

/-- The assignment `dp->PARAM = v`. -/
def dp_set (dp : efab_nic_design_parameters) (p : dp_param) (v : Int) :
    efab_nic_design_parameters :=
  match p with
  | dp_param.rx_superbuf_bytes => { dp with rx_superbuf_bytes := v }
  | dp_param.rx_frame_offset => { dp with rx_frame_offset := v }
  | dp_param.tx_aperture_bytes => { dp with tx_aperture_bytes := v }
  | dp_param.tx_fifo_bytes => { dp with tx_fifo_bytes := v }
  | dp_param.timestamp_subnano_bits => { dp with timestamp_subnano_bits := v }
  | dp_param.unsol_credit_seq_mask => { dp with unsol_credit_seq_mask := v }

/-- The value the adapter reports for each parameter: the second argument of
the corresponding `SET` line. -/
def dp_value (env : DpEnv) : dp_param → Int
  | dp_param.rx_superbuf_bytes => env.EFCT_RX_SUPERBUF_BYTES
  | dp_param.rx_frame_offset => env.EFCT_RX_HEADER_NEXT_FRAME_LOC_1 - 2
  | dp_param.tx_aperture_bytes => 0x1000
  | dp_param.tx_fifo_bytes => 0x8000
  | dp_param.timestamp_subnano_bits => 2
  | dp_param.unsol_credit_seq_mask => 0x7f

/-- The six `SET` lines in source order. -/
def dp_lines : List dp_param :=
  [dp_param.rx_superbuf_bytes, dp_param.rx_frame_offset, dp_param.tx_aperture_bytes,
   dp_param.tx_fifo_bytes, dp_param.timestamp_subnano_bits, dp_param.unsol_credit_seq_mask]

/-- The expansion of a sequence of `SET(PARAM, VALUE)` lines followed by
`return 0`: a known parameter is assigned, an unknown one whose value differs
from the default returns `-ENODEV` at once. The result is the status and the
caller's structure at the return. -/
def dp_run (env : DpEnv) : List dp_param → efab_nic_design_parameters →
    Int × efab_nic_design_parameters
  | [], dp => (0, dp)
  | p :: rest, dp =>
    if env.EFAB_NIC_DP_KNOWN dp.known_size p then
      dp_run env rest (dp_set dp p (dp_value env p))
    else if dp_value env p ≠ env.EFAB_NIC_DP_DEFAULT p then
      (-ENODEV, dp)
    else
      dp_run env rest dp

/-- Embedding of `ef10ct_design_parameters`. -/
def ef10ct_design_parameters (env : DpEnv) (dp : efab_nic_design_parameters) :
    Int × efab_nic_design_parameters :=
  dp_run env dp_lines dp

/-- A sample interface: the first `known_size` parameters of the source order
are known; the defaults are those of a caller that predates the last four. -/
def sample_dp_env : DpEnv :=
  { EFAB_NIC_DP_KNOWN := fun known_size p =>
      match p with
      | dp_param.rx_superbuf_bytes => decide (1 ≤ known_size)
      | dp_param.rx_frame_offset => decide (2 ≤ known_size)
      | dp_param.tx_aperture_bytes => decide (3 ≤ known_size)
      | dp_param.tx_fifo_bytes => decide (4 ≤ known_size)
      | dp_param.timestamp_subnano_bits => decide (5 ≤ known_size)
      | dp_param.unsol_credit_seq_mask => decide (6 ≤ known_size)
    EFAB_NIC_DP_DEFAULT := fun p =>
      match p with
      | dp_param.rx_superbuf_bytes => 1048576
      | dp_param.rx_frame_offset => 62
      | dp_param.tx_aperture_bytes => 4096
      | dp_param.tx_fifo_bytes => 32768
      | dp_param.timestamp_subnano_bits => 2
      | dp_param.unsol_credit_seq_mask => 0
    EFCT_RX_SUPERBUF_BYTES := 1048576
    EFCT_RX_HEADER_NEXT_FRAME_LOC_1 := 66 }

/-! ## Queue-table invariant of the simulated firmware -/

/-- Modelled from the spec: the set-up code of the simulated device is not
among the sources. Its initial state is the all-unbound one: no EVQ is inited,
no mask bit is set, every TXQ slot carries the unbound value -1. -/
def initial_test_device (n_evqs n_txqs : Nat) : efct_test_device :=
  { evqs := List.replicate n_evqs ⟨false, 0, 0, 0, 0, 0⟩
    txqs := List.replicate n_txqs ⟨-1, 0, 0, 0, 0, delayed_work.idle⟩ }

/-- The queue-table invariant: for every TXQ slot `i` and EVQ `e`, the slot is
bound to `e` exactly when bit `i` of `evqs[e].txqs` is set; the EVQ of every
bound slot exists and is inited; an EVQ that is not inited has an empty mask. -/
def queue_table_ok (tdev : efct_test_device) : Prop :=
  (∀ (i e : Nat) (t : efct_test_txq) (q : efct_test_evq),
    tdev.txqs[i]? = some t → tdev.evqs[e]? = some q →
    (t.evq = (e : Int) ↔ q.txqs.testBit i = true)) ∧
  (∀ (i : Nat) (t : efct_test_txq), tdev.txqs[i]? = some t → 0 ≤ t.evq →
    ∃ q, tdev.evqs[t.evq.toNat]? = some q ∧ q.inited = true) ∧
  (∀ (e : Nat) (q : efct_test_evq), tdev.evqs[e]? = some q → q.inited = false → q.txqs = 0)

/-- What the invariant needs from the event writer of the simulated device:
writing a flush event touches neither `inited` nor the mask. -/
def push_keeps_binding (k : Config) : Prop :=
  ∀ (q : efct_test_evq) (txq : Int),
    (k.evq_push_tx_flush_complete q txq).inited = q.inited ∧
    (k.evq_push_tx_flush_complete q txq).txqs = q.txqs

/-- The sample device with EVQ 0 inited and TXQ slot 0 bound to it. -/
def sample_device_bound : efct_test_device :=
  { evqs := [⟨true, 1, 0, 4, 0, 3⟩, ⟨false, 0, 0, 0, 0, 0⟩]
    txqs := [⟨0, 8192, 0, 0, 1, delayed_work.pending 100⟩, ⟨-1, 0, 0, 0, 0, delayed_work.idle⟩] }

/-! ## The flush state machine -/

/-- A step of the flush state machine of one EVQ: a flush call for queue
`dmaq`, or a run of the scanner over the given ring content. -/
inductive flush_event where
  | flush (dmaq : Nat) : flush_event
  | scan (ring : Nat → Nat) : flush_event

/-- One step on EVQ `evq`: `ef10ct_flush_tx_dma_channel`, or, when the work
item is pending, a run of `ef10ct_check_for_flushes` by the work queue. `none`
when the step cannot be taken (the call stops, or no scan is scheduled). -/
def flush_machine_step {σ : Type} (f : EventFormat) (ops : FwOps σ) (evq : Nat)
    (w : World σ) : flush_event → Option (World σ)
  | flush_event.flush dmaq =>
    match ef10ct_flush_tx_dma_channel ops w dmaq evq with
    | Outcome.ret _ w1 => some w1
    | Outcome.halt _ _ => none
  | flush_event.scan ring =>
    match w.nic.arch_extra.evq[evq]? with
    | none => none
    | some e =>
      match e.check_flushes with
      | delayed_work.idle => none
      | delayed_work.pending _ =>
        some (w.with_table
          { w.nic.arch_extra with
            evq := w.nic.arch_extra.evq.set evq (check_flushes_run f e ring).evq })

/-- A finite sequence of steps, taken in order. -/
def flush_machine_run {σ : Type} (f : EventFormat) (ops : FwOps σ) (evq : Nat) :
    World σ → List flush_event → Option (World σ)
  | w, [] => some w
  | w, ev :: rest =>
    match flush_machine_step f ops evq w ev with
    | none => none
    | some w1 => flush_machine_run f ops evq w1 rest

/-- Number of flush calls in a sequence of steps. -/
def count_flushes : List flush_event → Nat
  | [] => 0
  | flush_event.flush _ :: rest => count_flushes rest + 1
  | flush_event.scan _ :: rest => count_flushes rest

/-- The sample adapter after EVQ 0 was enabled with 4 entries (counter 0,
scanner idle), on a firmware that is not modelled further. -/
def sample_world_enabled : World Unit :=
  { nic := { self := 64
             arch_extra :=
               { evq_n := 2
                 evq := [⟨64, 0, delayed_work.idle, 1048576, 4, 0⟩,
                         ⟨0, 0, delayed_work.idle, 0, 0, -1⟩] } }
    dev := ()
    rpcs := [] }

/-- The initialised simulated device under an adapter whose EVQ 1 owns TXQ 5
and whose EVQ 0 has none. -/
def sample_world_txq5 : World efct_test_device :=
  { nic := { self := 64
             arch_extra :=
               { evq_n := 2
                 evq := [⟨0, 0, delayed_work.idle, 0, 0, -1⟩,
                         ⟨0, 0, delayed_work.idle, 0, 0, 5⟩] } }
    dev := sample_device_inited
    rpcs := [] }

/-- An event of the sample format with the given event type, control subtype,
flush type and queue id. -/
def sample_event (type subtype flush_type qid : Nat) : Nat :=
  type * 2 ^ 60 + subtype * 2 ^ 53 + flush_type * 2 ^ 8 + qid

/-- A six-entry ring in the sample format: three non-zero entries that each
fail one of the three tests (a non-control event, a control event that is not
a flush, a flush that is not a TX flush), then the TX flush events of queues 7
and 5. -/
def sample_mixed_ring : Nat → Nat :=
  fun i =>
    if i = 0 then sample_event 2 2 1 9
    else if i = 1 then sample_event 3 1 1 9
    else if i = 2 then sample_event 3 2 0 9
    else if i = 3 then sample_event 3 2 1 7
    else if i = 4 then sample_event 3 2 1 5
    else 0

/-! ## Lemmas on the integer conversions -/

theorem to_uint32_of_nonneg (x : Int) (h0 : 0 ≤ x) (h1 : x ≤ INT_MAX) :
    (to_uint32 x : Int) = x := by
  unfold to_uint32 INT_MAX at *
  have h : x % 2 ^ 32 = x := Int.emod_eq_of_lt h0 (by omega)
  rw [h]; exact Int.toNat_of_nonneg h0

theorem to_uint32_of_neg (x : Int) (h0 : x < 0) (h1 : INT_MIN ≤ x) :
    (to_uint32 x : Int) = x + 2 ^ 32 := by
  unfold to_uint32 INT_MIN at *
  have h : x % 2 ^ 32 = x + 2 ^ 32 := by
    have : (x + 2 ^ 32) % 2 ^ 32 = x + 2 ^ 32 := Int.emod_eq_of_lt (by omega) (by omega)
    rw [← this]; simp
  rw [h]; exact Int.toNat_of_nonneg (by omega)

theorem int_lt_evq_n_iff (low : Int) (ef10ct : efhw_nic_ef10ct)
    (hlo : INT_MIN ≤ low) (hhi : low ≤ INT_MAX) (hn : (ef10ct.evq_n : Int) ≤ INT_MAX) :
    int_lt_evq_n low ef10ct = true ↔ 0 ≤ low ∧ low < ef10ct.evq_n := by
  unfold int_lt_evq_n
  rw [decide_eq_true_iff]
  by_cases h0 : 0 ≤ low
  · have h := to_uint32_of_nonneg low h0 hhi
    simp only [INT_MIN, INT_MAX] at hlo hhi hn
    constructor
    · intro h2; exact ⟨h0, by omega⟩
    · intro h2; omega
  · have h := to_uint32_of_neg low (by omega) hlo
    simp only [INT_MIN, INT_MAX] at hlo hhi hn
    constructor
    · intro h2; omega
    · intro h2; omega

theorem evq_read_in_range (ef10ct : efhw_nic_ef10ct) (low : Int)
    (h0 : 0 ≤ low) (h1 : low < ef10ct.evq_n) (hlen : ef10ct.evq.length = ef10ct.evq_n) :
    ∃ e, ef10ct.evq[low.toNat]? = some e ∧ evq_read ef10ct low = some e := by
  have hlt : low.toNat < ef10ct.evq.length := by omega
  refine ⟨ef10ct.evq[low.toNat], List.getElem?_eq_getElem hlt, ?_⟩
  unfold evq_read
  rw [if_pos h0]
  exact List.getElem?_eq_getElem hlt

theorem evq_modify_of_read (ef10ct : efhw_nic_ef10ct) (i : Nat)
    (f : efhw_nic_ef10ct_evq → efhw_nic_ef10ct_evq) (e : efhw_nic_ef10ct_evq)
    (he : ef10ct.evq[i]? = some e) :
    evq_modify ef10ct i f = some { ef10ct with evq := ef10ct.evq.set i (f e) } := by
  unfold evq_modify
  rw [he]

theorem getElem?_set_same {α : Type} (l : List α) (i : Nat) (a b : α)
    (h : l[i]? = some a) : (l.set i b)[i]? = some b := by
  have hlt : i < l.length := by
    by_contra hge
    rw [List.getElem?_eq_none (by omega)] at h
    cases h
  rw [List.getElem?_set_self hlt]

theorem getElem?_set_other {α : Type} (l : List α) (i j : Nat) (b : α)
    (h : j ≠ i) : (l.set i b)[j]? = l[j]? :=
  List.getElem?_set_ne (fun hij => h hij.symm)

theorem read_of_lt_length (ef10ct : efhw_nic_ef10ct) (i : Nat)
    (hi : i < ef10ct.evq_n) (hlen : ef10ct.evq.length = ef10ct.evq_n) :
    ∃ e, ef10ct.evq[i]? = some e :=
  ⟨ef10ct.evq[i], List.getElem?_eq_getElem (by omega)⟩

theorem fw_rpc_of_ops {σ : Type} (ops : FwOps σ) (w : World σ) (cmd : efx_auxiliary_rpc)
    (rc : Int) (d : σ) (h : ops w.dev cmd = some (rc, d)) :
    ef10ct_fw_rpc ops w cmd = Outcome.ret rc { w with rpcs := w.rpcs ++ [cmd], dev := d } := by
  unfold ef10ct_fw_rpc
  rw [h]

theorem wrap_int_of_range (x : Int) (h0 : INT_MIN ≤ x) (h1 : x ≤ INT_MAX) :
    wrap_int x = x := by
  unfold wrap_int
  simp only [INT_MIN, INT_MAX] at h0 h1
  have h : (x + 2 ^ 31) % 2 ^ 32 = x + 2 ^ 31 := Int.emod_eq_of_lt (by omega) (by omega)
  rw [h]; omega

theorem wrap_int_succ (x : Int) : wrap_int (wrap_int x + 1) = wrap_int (x + 1) := by
  unfold wrap_int
  omega

theorem flush_step {σ : Type} (ops : FwOps σ) (w : World σ) (dmaq evq : Nat)
    (e : efhw_nic_ef10ct_evq) (rc : Int) (d : σ)
    (he : w.nic.arch_extra.evq[evq]? = some e)
    (hrpc : ops w.dev (fini_txq_cmd dmaq) = some (rc, d)) :
    ef10ct_flush_tx_dma_channel ops w dmaq evq =
      Outcome.ret rc
        (World.with_table { w with rpcs := w.rpcs ++ [fini_txq_cmd dmaq], dev := d }
          { w.nic.arch_extra with evq := w.nic.arch_extra.evq.set evq (flush_requested_evq e) }) := by
  unfold ef10ct_flush_tx_dma_channel
  rw [fw_rpc_of_ops ops w _ rc d hrpc]
  simp only
  rw [evq_modify_of_read _ _ _ e he]

theorem flush_tx_each_spec {σ : Type} (ops : FwOps σ)
    (hops : ∀ d c, ∃ r, ops d c = some r) (evq : Nat) (dmaqs : List Nat) :
    ∀ (w : World σ) (e : efhw_nic_ef10ct_evq), w.nic.arch_extra.evq[evq]? = some e →
      ∃ w1, flush_tx_each ops evq dmaqs w = Outcome.ret () w1 ∧
        w1.nic.arch_extra.evq[evq]? = some (flush_requested_evq^[dmaqs.length] e) ∧
        ∀ j, j ≠ evq → w1.nic.arch_extra.evq[j]? = w.nic.arch_extra.evq[j]? := by
  induction dmaqs with
  | nil =>
    intro w e he
    exact ⟨w, rfl, he, fun _ _ => rfl⟩
  | cons dmaq rest ih =>
    intro w e he
    obtain ⟨⟨rc, d⟩, hr⟩ := hops w.dev (fini_txq_cmd dmaq)
    have hstep := flush_step ops w dmaq evq e rc d he hr
    obtain ⟨w1, h1, h2, h3⟩ := ih
      (World.with_table { w with rpcs := w.rpcs ++ [fini_txq_cmd dmaq], dev := d }
        { w.nic.arch_extra with evq := w.nic.arch_extra.evq.set evq (flush_requested_evq e) })
      (flush_requested_evq e) (getElem?_set_same _ _ _ _ he)
    refine ⟨w1, ?_, ?_, ?_⟩
    · simp only [flush_tx_each, hstep]
      exact h1
    · rw [h2, List.length_cons, Function.iterate_succ_apply]
    · intro j hj
      rw [h3 j hj]
      exact getElem?_set_other _ _ _ _ hj

theorem flush_requested_iterate (e : efhw_nic_ef10ct_evq) (n : Nat)
    (hq : wrap_int e.queues_flushing = e.queues_flushing) :
    (flush_requested_evq^[n] e).queues_flushing = wrap_int (e.queues_flushing + n) ∧
    (flush_requested_evq^[n] e).check_flushes =
      (if n = 0 then e.check_flushes else schedule_delayed_work e.check_flushes 0) := by
  induction n with
  | zero => simp [hq]
  | succ m ih =>
    rw [Function.iterate_succ_apply']
    obtain ⟨ih1, ih2⟩ := ih
    constructor
    · simp only [flush_requested_evq, ih1, wrap_int_succ]
      congr 1
      push_cast
      ring
    · simp only [flush_requested_evq, ih2]
      by_cases hm : m = 0
      · simp [hm]
      · simp only [hm, if_false, Nat.succ_ne_zero]
        cases e.check_flushes <;> rfl

/-! ## The resource constraint solver -/

/-- C1: with `want_txq` set, for every `int` slot `low` (negative or beyond the
table included) on a well-formed table, `ef10ct_accept_vi_constraints` returns,
and returns true exactly when `0 <= low < evq_n` and `evq[low].txq` is not
`EFCT_EVQ_NO_TXQ`; the `order` argument does not change the result. -/
theorem accept_vi_constraints_want_txq (nic : efhw_nic) (low : Int) (order : Nat)
    (vc : efhw_vi_constraints) (hlo : INT_MIN ≤ low) (hhi : low ≤ INT_MAX)
    (htab : table_ok nic.arch_extra) (hw : vc.want_txq = true) :
    (∃ b, ef10ct_accept_vi_constraints nic low order vc = some b ∧
      (b = true ↔ 0 ≤ low ∧ low < nic.arch_extra.evq_n ∧
        ∃ e, nic.arch_extra.evq[low.toNat]? = some e ∧ e.txq ≠ EFCT_EVQ_NO_TXQ)) ∧
    ∀ order2 : Nat, ef10ct_accept_vi_constraints nic low order2 vc =
      ef10ct_accept_vi_constraints nic low order vc := by
  refine ⟨?_, fun _ => rfl⟩
  have hiff := int_lt_evq_n_iff low nic.arch_extra hlo hhi htab.2
  by_cases hlt : int_lt_evq_n low nic.arch_extra = true
  · obtain ⟨h0, h1⟩ := hiff.mp hlt
    obtain ⟨e, he, hr⟩ := evq_read_in_range nic.arch_extra low h0 h1 htab.1
    refine ⟨decide (e.txq ≠ EFCT_EVQ_NO_TXQ), ?_, ?_⟩
    · simp [ef10ct_accept_vi_constraints, hlt, hr, hw]
    · rw [decide_eq_true_iff]
      constructor
      · intro hne; exact ⟨h0, h1, e, he, hne⟩
      · rintro ⟨_, _, e2, he2, hne⟩
        rw [he] at he2
        cases he2
        exact hne
  · have hnot : ¬ (0 ≤ low ∧ low < nic.arch_extra.evq_n) := fun h => hlt (hiff.mpr h)
    refine ⟨false, ?_, ?_⟩
    · simp [ef10ct_accept_vi_constraints, hlt, hw]
    · constructor
      · intro h; cases h
      · rintro ⟨h0, h1, _⟩; exact absurd ⟨h0, h1⟩ hnot

/-- Witness for C1: slot 1 of a two-entry table whose second EVQ has TXQ 5. -/
theorem accept_vi_constraints_want_txq_witness :
    (∃ b, ef10ct_accept_vi_constraints
        ⟨1, ⟨2, [⟨0, 0, delayed_work.idle, 0, 0, -1⟩, ⟨0, 0, delayed_work.idle, 0, 0, 5⟩]⟩⟩
        1 0 ⟨true⟩ = some b ∧
      (b = true ↔ (0 : Int) ≤ 1 ∧ (1 : Int) < ((2 : Nat) : Int) ∧
        ∃ e, ([⟨0, 0, delayed_work.idle, 0, 0, -1⟩, ⟨0, 0, delayed_work.idle, 0, 0, 5⟩] :
          List efhw_nic_ef10ct_evq)[(1 : Int).toNat]? = some e ∧ e.txq ≠ EFCT_EVQ_NO_TXQ)) ∧
    ∀ order2 : Nat, ef10ct_accept_vi_constraints
        ⟨1, ⟨2, [⟨0, 0, delayed_work.idle, 0, 0, -1⟩, ⟨0, 0, delayed_work.idle, 0, 0, 5⟩]⟩⟩
        1 order2 ⟨true⟩ =
      ef10ct_accept_vi_constraints
        ⟨1, ⟨2, [⟨0, 0, delayed_work.idle, 0, 0, -1⟩, ⟨0, 0, delayed_work.idle, 0, 0, 5⟩]⟩⟩
        1 0 ⟨true⟩ :=
  accept_vi_constraints_want_txq
    ⟨1, ⟨2, [⟨0, 0, delayed_work.idle, 0, 0, -1⟩, ⟨0, 0, delayed_work.idle, 0, 0, 5⟩]⟩⟩
    1 0 ⟨true⟩ (by decide) (by decide) (by decide) rfl

/-- C2: with `want_txq` clear, for every `int` slot `low` on a well-formed
table, `ef10ct_accept_vi_constraints` returns true exactly when `low < 0` or
`low >= evq_n`; the value depends on `low` and `evq_n` only, not on the table
contents or on `order`. -/
theorem accept_vi_constraints_no_txq (nic : efhw_nic) (low : Int) (order : Nat)
    (vc : efhw_vi_constraints) (hlo : INT_MIN ≤ low) (hhi : low ≤ INT_MAX)
    (htab : table_ok nic.arch_extra) (hw : vc.want_txq = false) :
    ef10ct_accept_vi_constraints nic low order vc =
      some (decide (low < 0 ∨ (nic.arch_extra.evq_n : Int) ≤ low)) := by
  have hiff := int_lt_evq_n_iff low nic.arch_extra hlo hhi htab.2
  by_cases hlt : int_lt_evq_n low nic.arch_extra = true
  · obtain ⟨h0, h1⟩ := hiff.mp hlt
    obtain ⟨e, _, hr⟩ := evq_read_in_range nic.arch_extra low h0 h1 htab.1
    have hd : decide (low < 0 ∨ (nic.arch_extra.evq_n : Int) ≤ low) = false := by
      rw [decide_eq_false_iff_not]; omega
    rw [hd]
    simp [ef10ct_accept_vi_constraints, hlt, hr, hw]
  · have hnot : ¬ (0 ≤ low ∧ low < nic.arch_extra.evq_n) := fun h => hlt (hiff.mpr h)
    have hd : decide (low < 0 ∨ (nic.arch_extra.evq_n : Int) ≤ low) = true := by
      rw [decide_eq_true_iff]; omega
    rw [hd]
    simp [ef10ct_accept_vi_constraints, hlt, hw]

/-- Witness for C2: the negative slot -3 on a two-entry table is accepted. -/
theorem accept_vi_constraints_no_txq_witness :
    ef10ct_accept_vi_constraints
        ⟨1, ⟨2, [⟨0, 0, delayed_work.idle, 0, 0, -1⟩, ⟨0, 0, delayed_work.idle, 0, 0, 5⟩]⟩⟩
        (-3) 0 ⟨false⟩ =
      some (decide ((-3 : Int) < 0 ∨ (((2 : Nat) : Int)) ≤ (-3 : Int))) :=
  accept_vi_constraints_no_txq
    ⟨1, ⟨2, [⟨0, 0, delayed_work.idle, 0, 0, -1⟩, ⟨0, 0, delayed_work.idle, 0, 0, 5⟩]⟩⟩
    (-3) 0 ⟨false⟩ (by decide) (by decide) (by decide) rfl

/-! ## Event queue enable and disable -/

/-- C3: for every EVQ id in the dummy range (`>= evq_n`) and whatever the
other arguments, enable returns 0 and disable returns, both in the unchanged
world: no command was handed to the firmware and no EVQ record was touched. -/
theorem event_queue_dummy_is_noop {σ : Type} (k : Config) (ops : FwOps σ) (w : World σ)
    (p : efhw_evq_params) (evq : Nat) (time_sync : Int)
    (hp : w.nic.arch_extra.evq_n ≤ p.evq) (he : w.nic.arch_extra.evq_n ≤ evq) :
    ef10ct_nic_event_queue_enable k ops w p = Outcome.ret 0 w ∧
    ef10ct_nic_event_queue_disable ops w evq time_sync = Outcome.ret () w := by
  constructor
  · unfold ef10ct_nic_event_queue_enable
    simp only [ge_iff_le, hp, if_true]
  · unfold ef10ct_nic_event_queue_disable
    simp only [ge_iff_le, he, if_true]

/-- Witness for C3: EVQ id 2 on the two-EVQ sample adapter. -/
theorem event_queue_dummy_is_noop_witness :
    ef10ct_nic_event_queue_enable (sample_config false) (efct_test_fw_rpc (sample_config false))
        sample_world { sample_evq_params 4 0 with evq := 2 } = Outcome.ret 0 sample_world ∧
    ef10ct_nic_event_queue_disable (efct_test_fw_rpc (sample_config false))
        sample_world 2 0 = Outcome.ret () sample_world :=
  event_queue_dummy_is_noop (sample_config false) (efct_test_fw_rpc (sample_config false))
    sample_world { sample_evq_params 4 0 with evq := 2 } 2 0 (by decide) (by decide)

/-- C4: for an EVQ id below `evq_n` on a table of `evq_n` records, when the
asserts pass and the init-EVQ RPC returns 0, enable returns 0; the record of
that EVQ then has `capacity = evq_size`, `queues_flushing = 0`,
`base = phys_to_virt(dma_addrs[0])`, an idle scanner and the adapter as `nic`,
its `txq` is kept, and every other record is unchanged. The simulated firmware,
whenever it answers that command with 0, has the queue inited with
`entries = evq_size`. -/
theorem event_queue_enable_success {σ : Type} (k : Config) (ops : FwOps σ) (w : World σ)
    (p : efhw_evq_params) (d : σ)
    (hevq : p.evq < w.nic.arch_extra.evq_n)
    (hlen : w.nic.arch_extra.evq.length = w.nic.arch_extra.evq_n)
    (hassert : k.NDEBUG = true ∨ (region_large_enough k p = true ∧ region_contiguous k p = true))
    (hrpc : ops w.dev (init_evq_cmd k p) = some (0, d)) :
    (∃ w1 e0 e1, ef10ct_nic_event_queue_enable k ops w p = Outcome.ret 0 w1 ∧
      w.nic.arch_extra.evq[p.evq]? = some e0 ∧
      w1.nic.arch_extra.evq[p.evq]? = some e1 ∧
      e1.capacity = p.evq_size ∧ e1.queues_flushing = 0 ∧
      e1.base = k.phys_to_virt (p.dma_addrs 0) ∧
      e1.check_flushes = delayed_work.idle ∧
      e1.nic = w.nic.self ∧ e1.txq = e0.txq ∧
      (∀ j, j ≠ p.evq → w1.nic.arch_extra.evq[j]? = w.nic.arch_extra.evq[j]?) ∧
      w1.nic.arch_extra.evq_n = w.nic.arch_extra.evq_n ∧
      w1.dev = d ∧ w1.rpcs = w.rpcs ++ [init_evq_cmd k p]) ∧
    (∀ tdev tdev1 : efct_test_device,
      efct_test_fw_rpc k tdev (init_evq_cmd k p) = some (0, tdev1) →
      ∃ q, tdev1.evqs[p.evq]? = some q ∧ q.inited = true ∧ q.entries = p.evq_size) := by
  constructor
  · obtain ⟨e0, he0⟩ := read_of_lt_length w.nic.arch_extra p.evq hevq hlen
    have hnot : ¬ (p.evq ≥ w.nic.arch_extra.evq_n) := by omega
    have ha1 : (!k.NDEBUG && !region_large_enough k p) = false := by
      rcases hassert with h | ⟨h, _⟩ <;> simp [h]
    have ha2 : (!k.NDEBUG && !region_contiguous k p) = false := by
      rcases hassert with h | ⟨_, h⟩ <;> simp [h]
    refine ⟨World.with_table { w with rpcs := w.rpcs ++ [init_evq_cmd k p], dev := d }
        { w.nic.arch_extra with evq := w.nic.arch_extra.evq.set p.evq (enabled_evq k w.nic p e0) },
      e0, enabled_evq k w.nic p e0, ?_, he0, ?_, rfl, rfl, rfl, rfl, rfl, rfl, ?_, rfl, rfl, rfl⟩
    · unfold ef10ct_nic_event_queue_enable
      simp only [hnot, if_false, ha1, ha2, Bool.false_eq_true]
      rw [fw_rpc_of_ops ops w _ 0 d hrpc]
      simp only [if_true]
      rw [evq_modify_of_read _ _ _ e0 he0]
    · exact getElem?_set_same _ _ _ _ he0
    · intro j hj
      exact getElem?_set_other _ _ _ _ hj
  · intro tdev tdev1 h
    unfold efct_test_fw_rpc at h
    simp only [init_evq_cmd, ne_eq, not_true_eq_false, if_false] at h
    unfold efct_test_init_evq at h
    simp only [enable_qparams] at h
    cases hr : test_evq_read tdev (p.evq : Int) with
    | none => simp [hr] at h
    | some evq =>
      simp only [hr] at h
      have hr2 : tdev.evqs[p.evq]? = some evq := by
        unfold test_evq_read at hr
        simpa using hr
      by_cases hin : evq.inited = true
      · simp [hin, EBUSY] at h
      · by_cases htx : evq.txqs = 0
        · simp only [hin, htx, ne_eq, not_true_eq_false, if_false, Bool.false_eq_true,
            Option.some.injEq, Prod.mk.injEq, true_and, Int.toNat_ofNat] at h
          subst h
          exact ⟨_, getElem?_set_same _ _ _ _ hr2, rfl, rfl⟩
        · simp [hin, htx] at h

/-- Witness for C4: EVQ 0 of the sample adapter enabled with 4 entries in one
page on the simulated firmware. -/
theorem event_queue_enable_success_witness :
    ∃ w1 e1 q, ef10ct_nic_event_queue_enable (sample_config false)
        (efct_test_fw_rpc (sample_config false)) sample_world (sample_evq_params 4 1)
        = Outcome.ret 0 w1 ∧
      w1.nic.arch_extra.evq[0]? = some e1 ∧ e1.capacity = 4 ∧ e1.queues_flushing = 0 ∧
      e1.check_flushes = delayed_work.idle ∧
      w1.dev.evqs[0]? = some q ∧ q.inited = true ∧ q.entries = 4 := by
  obtain ⟨⟨w1, _, e1, h, _, h1, hc, hq, _, hs, _, _, _, _, hd, _⟩, hfw⟩ :=
    event_queue_enable_success (sample_config false) (efct_test_fw_rpc (sample_config false))
      sample_world (sample_evq_params 4 1)
      { sample_device with evqs := [⟨true, 0, 256, 4, 0, 3⟩, ⟨false, 0, 0, 0, 0, 0⟩] }
      (by decide) (by decide) (Or.inr ⟨by decide, by decide⟩) rfl
  obtain ⟨q, hq1, hq2, hq3⟩ := hfw sample_device _ rfl
  exact ⟨w1, e1, q, h, h1, hc, hq, hs, by rw [hd]; exact hq1, hq2, hq3⟩

/-- Counterexample to C5 as stated: one 4 KiB page offered for 1024 8-byte
entries. Without assertions the call issues the init-EVQ RPC, rewrites the EVQ
record and returns 0; with assertions it stops at the failed `EFHW_ASSERT`. In
neither build is an error code returned. -/
theorem event_queue_enable_undersized_counterexample :
    region_large_enough (sample_config true) (sample_evq_params 1024 1) = false ∧
    (∃ w1, ef10ct_nic_event_queue_enable (sample_config true)
        (efct_test_fw_rpc (sample_config true)) sample_world (sample_evq_params 1024 1)
        = Outcome.ret 0 w1 ∧
      w1.rpcs = [init_evq_cmd (sample_config true) (sample_evq_params 1024 1)] ∧
      w1.nic ≠ sample_world.nic) ∧
    ef10ct_nic_event_queue_enable (sample_config false)
        (efct_test_fw_rpc (sample_config false)) sample_world (sample_evq_params 1024 1)
      = Outcome.halt Fault.assertion sample_world :=
  ⟨by decide, ⟨_, rfl, rfl, by decide⟩, rfl⟩

/-- C5 (amended): for an EVQ id below `evq_n` and a region too small for the
ring, a build with assertions stops at the failed `EFHW_ASSERT` in the
unchanged world (no RPC issued, EVQ record untouched, no error code returned);
a build with `NDEBUG` does not test the size and hands the init-EVQ command to
the firmware. -/
theorem event_queue_enable_undersized {σ : Type} (k : Config) (ops : FwOps σ) (w : World σ)
    (p : efhw_evq_params) (hevq : p.evq < w.nic.arch_extra.evq_n)
    (hsmall : region_large_enough k p = false) :
    (k.NDEBUG = false →
      ef10ct_nic_event_queue_enable k ops w p = Outcome.halt Fault.assertion w) ∧
    (k.NDEBUG = true →
      (ef10ct_nic_event_queue_enable k ops w p).world.rpcs = w.rpcs ++ [init_evq_cmd k p]) := by
  have hnot : ¬ (p.evq ≥ w.nic.arch_extra.evq_n) := by omega
  constructor
  · intro hd
    unfold ef10ct_nic_event_queue_enable
    simp [hnot, hd, hsmall]
  · intro hd
    unfold ef10ct_nic_event_queue_enable
    simp only [hnot, if_false, hd, Bool.not_true, Bool.false_and, Bool.false_eq_true]
    unfold ef10ct_fw_rpc
    cases hops : ops w.dev (init_evq_cmd k p) with
    | none => rfl
    | some r =>
      obtain ⟨rc, d⟩ := r
      simp only
      by_cases hrc : rc = 0
      · simp only [hrc, if_true]
        cases evq_modify w.nic.arch_extra p.evq (enabled_evq k w.nic p) <;> rfl
      · simp only [hrc, if_false]
        rfl

/-- Witness for C5 (amended): the one-page, 1024-entry request on the sample
adapter, with assertions enabled. -/
theorem event_queue_enable_undersized_witness :
    ef10ct_nic_event_queue_enable (sample_config false) (fw_const 0) sample_world_unit
        (sample_evq_params 1024 1) = Outcome.halt Fault.assertion sample_world_unit :=
  (event_queue_enable_undersized (sample_config false) (fw_const 0) sample_world_unit
    (sample_evq_params 1024 1) (by decide) (by decide)).1 rfl

/-- C6: for an EVQ id below `evq_n`, when the asserts pass and the init-EVQ
RPC returns a non-zero status `rc`, enable returns exactly `rc` and the whole
adapter state, every EVQ record included, is as before the call. -/
theorem event_queue_enable_rpc_failure {σ : Type} (k : Config) (ops : FwOps σ) (w : World σ)
    (p : efhw_evq_params) (rc : Int) (d : σ)
    (hevq : p.evq < w.nic.arch_extra.evq_n)
    (hassert : k.NDEBUG = true ∨ (region_large_enough k p = true ∧ region_contiguous k p = true))
    (hrc : rc ≠ 0)
    (hrpc : ops w.dev (init_evq_cmd k p) = some (rc, d)) :
    ∃ w1, ef10ct_nic_event_queue_enable k ops w p = Outcome.ret rc w1 ∧
      w1.nic = w.nic ∧ w1.dev = d ∧ w1.rpcs = w.rpcs ++ [init_evq_cmd k p] := by
  have hnot : ¬ (p.evq ≥ w.nic.arch_extra.evq_n) := by omega
  have ha1 : (!k.NDEBUG && !region_large_enough k p) = false := by
    rcases hassert with h | ⟨h, _⟩ <;> simp [h]
  have ha2 : (!k.NDEBUG && !region_contiguous k p) = false := by
    rcases hassert with h | ⟨_, h⟩ <;> simp [h]
  refine ⟨{ w with rpcs := w.rpcs ++ [init_evq_cmd k p], dev := d }, ?_, rfl, rfl, rfl⟩
  unfold ef10ct_nic_event_queue_enable
  simp only [hnot, if_false, ha1, ha2, Bool.false_eq_true]
  rw [fw_rpc_of_ops ops w _ rc d hrpc]
  simp only [hrc, if_false]

/-- Witness for C6: enabling EVQ 0 on a simulated device where it is already
inited; the firmware answers `-EBUSY`. -/
theorem event_queue_enable_rpc_failure_witness :
    ∃ w1, ef10ct_nic_event_queue_enable (sample_config false)
        (efct_test_fw_rpc (sample_config false)) sample_world_inited (sample_evq_params 4 1)
        = Outcome.ret (-EBUSY) w1 ∧
      w1.nic = sample_world_inited.nic ∧ w1.dev = sample_device_inited ∧
      w1.rpcs = sample_world_inited.rpcs ++
        [init_evq_cmd (sample_config false) (sample_evq_params 4 1)] :=
  event_queue_enable_rpc_failure (sample_config false) (efct_test_fw_rpc (sample_config false))
    sample_world_inited (sample_evq_params 4 1) (-EBUSY) sample_device_inited
    (by decide) (Or.inr ⟨by decide, by decide⟩) (by decide) rfl

/-! ## Transmit queue init -/

/-- Counterexample to C7 as stated: TXQ init against EVQ 1 of the sample
adapter, whose `txq` is `EFCT_EVQ_NO_TXQ`. Without assertions the init-TXQ RPC
is issued with `qid = -1`, the firmware's id is written to `qid_out` and 0 is
returned; with assertions the call stops at the failed `EFHW_ASSERT`. In
neither build is an error code returned. -/
theorem tx_q_init_no_txq_counterexample :
    (sample_world_inited.nic.arch_extra.evq[1]?).map (fun e => e.txq) = some EFCT_EVQ_NO_TXQ ∧
    (∃ w1, ef10ct_dmaq_tx_q_init (sample_config true) (efct_test_fw_rpc (sample_config true))
        sample_world_inited ⟨1, 7, -5⟩ = Outcome.ret (0, ⟨1, 7, 0⟩) w1 ∧
      w1.rpcs = [init_txq_cmd (sample_config true) ⟨1, -1, 7⟩]) ∧
    ef10ct_dmaq_tx_q_init (sample_config false) (efct_test_fw_rpc (sample_config false))
        sample_world_inited ⟨1, 7, -5⟩ = Outcome.halt Fault.assertion sample_world_inited :=
  ⟨rfl, ⟨_, rfl, rfl⟩, rfl⟩

/-- C7 (amended): for every request whose evq id is outside the hardware range
or whose EVQ has `txq = EFCT_EVQ_NO_TXQ`, a build with assertions stops (failed
`EFHW_ASSERT`, or the read outside the table) in the unchanged world: no RPC
issued, `tx.qid_out` not written, no error code returned. A build with `NDEBUG`
makes no test: whenever the slot can be read, the init-TXQ command is handed to
the firmware with the slot's `txq` as `qid`. -/
theorem tx_q_init_invalid_request {σ : Type} (k : Config) (ops : FwOps σ) (w : World σ)
    (tp : efhw_dmaq_params)
    (hbad : w.nic.arch_extra.evq_n ≤ tp.evq ∨
      ∃ e, w.nic.arch_extra.evq[tp.evq]? = some e ∧ e.txq = EFCT_EVQ_NO_TXQ) :
    (k.NDEBUG = false → ∃ f, ef10ct_dmaq_tx_q_init k ops w tp = Outcome.halt f w) ∧
    (k.NDEBUG = true → ∀ e, w.nic.arch_extra.evq[tp.evq]? = some e →
      (ef10ct_dmaq_tx_q_init k ops w tp).world.rpcs =
        w.rpcs ++ [init_txq_cmd k { evq := (tp.evq : Int), qid := e.txq, label := tp.tag }]) := by
  constructor
  · intro hd
    cases hr : w.nic.arch_extra.evq[tp.evq]? with
    | none =>
      refine ⟨Fault.out_of_bounds, ?_⟩
      unfold ef10ct_dmaq_tx_q_init
      simp only [hr]
    | some e =>
      refine ⟨Fault.assertion, ?_⟩
      unfold ef10ct_dmaq_tx_q_init
      simp only [hr]
      rcases hbad with hge | ⟨e2, he2, hno⟩
      · have hnot : ¬ (tp.evq < w.nic.arch_extra.evq_n) := by omega
        simp [hd, hnot]
      · rw [hr] at he2
        cases he2
        by_cases hlt : tp.evq < w.nic.arch_extra.evq_n
        · simp [hd, hlt, hno]
        · simp [hd, hlt]
  · intro hd e he
    unfold ef10ct_dmaq_tx_q_init
    simp only [he, hd, Bool.not_true, Bool.false_and, Bool.false_eq_true, if_false]
    unfold ef10ct_fw_rpc
    cases ops w.dev (init_txq_cmd k { evq := (tp.evq : Int), qid := e.txq, label := tp.tag }) with
    | none => rfl
    | some r => rfl

/-- Witness for C7 (amended): the request against EVQ 1 of the sample adapter
with assertions enabled. -/
theorem tx_q_init_invalid_request_witness :
    ∃ f, ef10ct_dmaq_tx_q_init (sample_config false) (efct_test_fw_rpc (sample_config false))
      sample_world_inited ⟨1, 7, -5⟩ = Outcome.halt f sample_world_inited :=
  (tx_q_init_invalid_request (sample_config false) (efct_test_fw_rpc (sample_config false))
    sample_world_inited ⟨1, 7, -5⟩ (Or.inr ⟨⟨0, 0, delayed_work.idle, 0, 0, -1⟩, rfl, rfl⟩)).1 rfl

/-- Whatever the firmware answers to a valid request, the value that
`ef10ct_dmaq_tx_q_init` returns is 0. -/
theorem tx_q_init_returns_zero {σ : Type} (k : Config) (ops : FwOps σ) (w : World σ)
    (tp : efhw_dmaq_params) (e : efhw_nic_ef10ct_evq) (rc : Int) (d : σ)
    (hevq : tp.evq < w.nic.arch_extra.evq_n)
    (he : w.nic.arch_extra.evq[tp.evq]? = some e) (htxq : e.txq ≠ EFCT_EVQ_NO_TXQ)
    (hrpc : ops w.dev (init_txq_cmd k { evq := (tp.evq : Int), qid := e.txq, label := tp.tag })
      = some (rc, d)) :
    ef10ct_dmaq_tx_q_init k ops w tp =
      Outcome.ret (0, if rc ≥ 0 then { tp with qid_out := rc } else tp)
        { w with
          rpcs := w.rpcs ++
            [init_txq_cmd k { evq := (tp.evq : Int), qid := e.txq, label := tp.tag }]
          dev := d } := by
  unfold ef10ct_dmaq_tx_q_init
  simp only [he, hevq, decide_True, Bool.not_true, Bool.and_false, Bool.false_eq_true, if_false,
    htxq, ne_eq, not_false_eq_true]
  rw [fw_rpc_of_ops ops w _ rc d hrpc]
  by_cases hrc : rc ≥ 0 <;> simp [hrc]

/-- C8 (the code at the failing input): EVQ 0 of the sample adapter owns TXQ 0
but is not inited in the simulated device, so the init-TXQ RPC answers
`-EINVAL`; `ef10ct_dmaq_tx_q_init` returns 0 to its caller and leaves
`tx.qid_out` (here -5) as it was. -/
theorem tx_q_init_drops_rpc_error :
    efct_test_fw_rpc (sample_config false) sample_world.dev
        (init_txq_cmd (sample_config false) ⟨0, 0, 7⟩) = some (-EINVAL, sample_world.dev) ∧
    ef10ct_dmaq_tx_q_init (sample_config false) (efct_test_fw_rpc (sample_config false))
        sample_world ⟨0, 7, -5⟩ =
      Outcome.ret (0, ⟨0, 7, -5⟩)
        { sample_world with rpcs := [init_txq_cmd (sample_config false) ⟨0, 0, 7⟩] } :=
  ⟨rfl, rfl⟩

theorem tx_q_init_issues_cmd {σ : Type} (k : Config) (ops : FwOps σ) (w : World σ)
    (tp : efhw_dmaq_params) (e : efhw_nic_ef10ct_evq)
    (hevq : tp.evq < w.nic.arch_extra.evq_n)
    (he : w.nic.arch_extra.evq[tp.evq]? = some e) (htxq : e.txq ≠ EFCT_EVQ_NO_TXQ) :
    (ef10ct_dmaq_tx_q_init k ops w tp).world.rpcs =
      w.rpcs ++ [init_txq_cmd k { evq := (tp.evq : Int), qid := e.txq, label := tp.tag }] := by
  unfold ef10ct_dmaq_tx_q_init
  simp only [he, hevq, decide_True, Bool.not_true, Bool.and_false, Bool.false_eq_true, if_false,
    htxq, ne_eq, not_false_eq_true]
  unfold ef10ct_fw_rpc
  cases ops w.dev (init_txq_cmd k { evq := (tp.evq : Int), qid := e.txq, label := tp.tag }) with
  | none => rfl
  | some r => rfl

/-- C9: for every valid request (evq below `evq_n`, EVQ with a TXQ) exactly one
command is handed to the firmware: `MC_CMD_INIT_TXQ`, with `inlen` and `outlen`
the size of the TXQ parameter block, whose payload has `evq` = the requested
evq, `qid = evq[evq].txq` and `label` = the caller's tag; when the firmware
answers that command with an id `q >= 0` the call returns 0 with
`tx.qid_out = q`. -/
theorem tx_q_init_success {σ : Type} (k : Config) (ops : FwOps σ) (w : World σ)
    (tp : efhw_dmaq_params) (e : efhw_nic_ef10ct_evq)
    (hevq : tp.evq < w.nic.arch_extra.evq_n)
    (he : w.nic.arch_extra.evq[tp.evq]? = some e) (htxq : e.txq ≠ EFCT_EVQ_NO_TXQ) :
    (ef10ct_dmaq_tx_q_init k ops w tp).world.rpcs =
      w.rpcs ++
        [{ cmd := mc_cmd.MC_CMD_INIT_TXQ
           inlen := k.sizeof_txq_params
           inbuf := rpc_buf.txq_params
             { evq := (tp.evq : Int), qid := e.txq, label := tp.tag }
           outlen := k.sizeof_txq_params }] ∧
    ∀ (q : Int) (d : σ), 0 ≤ q →
      ops w.dev
          { cmd := mc_cmd.MC_CMD_INIT_TXQ
            inlen := k.sizeof_txq_params
            inbuf := rpc_buf.txq_params
              { evq := (tp.evq : Int), qid := e.txq, label := tp.tag }
            outlen := k.sizeof_txq_params }
        = some (q, d) →
      ∃ w1, ef10ct_dmaq_tx_q_init k ops w tp = Outcome.ret (0, { tp with qid_out := q }) w1 ∧
        w1.nic = w.nic ∧ w1.dev = d ∧
        w1.rpcs = w.rpcs ++
          [{ cmd := mc_cmd.MC_CMD_INIT_TXQ
             inlen := k.sizeof_txq_params
             inbuf := rpc_buf.txq_params
               { evq := (tp.evq : Int), qid := e.txq, label := tp.tag }
             outlen := k.sizeof_txq_params }] := by
  constructor
  · exact tx_q_init_issues_cmd k ops w tp e hevq he htxq
  · intro q d hq hrpc
    refine ⟨{ w with
        rpcs := w.rpcs ++
          [{ cmd := mc_cmd.MC_CMD_INIT_TXQ
             inlen := k.sizeof_txq_params
             inbuf := rpc_buf.txq_params
               { evq := (tp.evq : Int), qid := e.txq, label := tp.tag }
             outlen := k.sizeof_txq_params }]
        dev := d }, ?_, rfl, rfl, rfl⟩
    rw [tx_q_init_returns_zero k ops w tp e q d hevq he htxq hrpc]
    simp [hq]
    rfl

/-- Witness for C9: TXQ init with tag 7 against EVQ 1 (TXQ 5) on the
initialised simulated device: the one command sent is `MC_CMD_INIT_TXQ` with
payload evq 1, qid 5, label 7; the firmware binds slot 0, and the call returns
0 with `tx.qid_out = 0`. -/
theorem tx_q_init_success_witness :
    (ef10ct_dmaq_tx_q_init (sample_config false) (efct_test_fw_rpc (sample_config false))
        sample_world_txq5 ⟨1, 7, -5⟩).world.rpcs =
      [{ cmd := mc_cmd.MC_CMD_INIT_TXQ, inlen := 12,
         inbuf := rpc_buf.txq_params { evq := 1, qid := 5, label := 7 }, outlen := 12 }] ∧
    ∃ w1, ef10ct_dmaq_tx_q_init (sample_config false) (efct_test_fw_rpc (sample_config false))
        sample_world_txq5 ⟨1, 7, -5⟩ = Outcome.ret (0, ⟨1, 7, 0⟩) w1 ∧
      w1.nic = sample_world_txq5.nic := by
  have h := tx_q_init_success (sample_config false) (efct_test_fw_rpc (sample_config false))
    sample_world_txq5 ⟨1, 7, -5⟩ ⟨0, 0, delayed_work.idle, 0, 0, 5⟩
    (by decide) rfl (by decide)
  refine ⟨h.1, ?_⟩
  obtain ⟨w1, h1, h2, _⟩ := h.2 0
    { evqs := [⟨true, 0, 0, 4, 0, 3⟩, ⟨true, 1, 0, 4, 0, 3⟩]
      txqs := [⟨1, 8192, 0, 0, 1, delayed_work.pending 100⟩,
        ⟨-1, 0, 0, 0, 0, delayed_work.idle⟩] }
    (by decide) (by decide)
  exact ⟨w1, h1, h2⟩

/-! ## Transmit queue flush -/

/-- Counterexample to C10 as stated, at K = 2^31: from the freshly enabled
EVQ 0 of the sample adapter, 2^31 flush calls with no scanner run in between
leave `queues_flushing` at -2^31, not at K: the `atomic_t` counter wraps. -/
theorem flush_tx_counter_wraps_counterexample :
    ∃ w1 e1, flush_tx_each (fw_const 0) 0 (List.replicate (2 ^ 31) 0) sample_world_unit
        = Outcome.ret () w1 ∧
      w1.nic.arch_extra.evq[0]? = some e1 ∧
      e1.queues_flushing = -(2 ^ 31) ∧
      e1.queues_flushing ≠ ((List.replicate (2 ^ 31) 0).length : Int) := by
  obtain ⟨w1, h1, h2, _⟩ := flush_tx_each_spec (fw_const 0) (fun d _ => ⟨(0, d), rfl⟩) 0
    (List.replicate (2 ^ 31) 0) sample_world_unit ⟨0, 0, delayed_work.idle, 0, 0, 0⟩ rfl
  have hq := (flush_requested_iterate ⟨0, 0, delayed_work.idle, 0, 0, 0⟩
    (List.replicate (2 ^ 31) 0).length (by decide)).1
  have hval : (flush_requested_evq^[(List.replicate (2 ^ 31) 0).length]
      ⟨0, 0, delayed_work.idle, 0, 0, 0⟩).queues_flushing = -(2 ^ 31) := by
    rw [hq, List.length_replicate]
    simp only [wrap_int]
    norm_num
  refine ⟨w1, _, h1, h2, hval, ?_⟩
  rw [hval, List.length_replicate]
  norm_num

/-- C10 (amended): for every K up to `INT_MAX` and every EVQ with
`queues_flushing = 0` and an idle scanner, K flush calls on that EVQ (any queue
ids, any firmware answers) with no scanner run in between all return and leave
`queues_flushing = K`, the scanner pending with delay 0 when K >= 1, and every
other EVQ record unchanged. A single call on an EVQ whose counter is below
`INT_MAX` adds exactly 1 to that counter and changes no other EVQ record. -/
theorem flush_tx_counts_requests {σ : Type} (ops : FwOps σ)
    (hops : ∀ d c, ∃ r, ops d c = some r) (evq : Nat) :
    (∀ (w : World σ) (e : efhw_nic_ef10ct_evq) (dmaqs : List Nat),
      w.nic.arch_extra.evq[evq]? = some e →
      e.queues_flushing = 0 → e.check_flushes = delayed_work.idle →
      (dmaqs.length : Int) ≤ INT_MAX →
      ∃ w1 e1, flush_tx_each ops evq dmaqs w = Outcome.ret () w1 ∧
        w1.nic.arch_extra.evq[evq]? = some e1 ∧
        e1.queues_flushing = dmaqs.length ∧
        (1 ≤ dmaqs.length → e1.check_flushes = delayed_work.pending 0) ∧
        ∀ j, j ≠ evq → w1.nic.arch_extra.evq[j]? = w.nic.arch_extra.evq[j]?) ∧
    (∀ (w : World σ) (e : efhw_nic_ef10ct_evq) (dmaq : Nat),
      w.nic.arch_extra.evq[evq]? = some e →
      INT_MIN ≤ e.queues_flushing → e.queues_flushing < INT_MAX →
      ∃ rc w1 e1, ef10ct_flush_tx_dma_channel ops w dmaq evq = Outcome.ret rc w1 ∧
        w1.nic.arch_extra.evq[evq]? = some e1 ∧
        e1.queues_flushing = e.queues_flushing + 1 ∧
        ∀ j, j ≠ evq → w1.nic.arch_extra.evq[j]? = w.nic.arch_extra.evq[j]?) := by
  constructor
  · intro w e dmaqs he hq hidle hK
    obtain ⟨w1, h1, h2, h3⟩ := flush_tx_each_spec ops hops evq dmaqs w e he
    have hwrap : wrap_int e.queues_flushing = e.queues_flushing := by
      rw [hq]; decide
    obtain ⟨hc, hs⟩ := flush_requested_iterate e dmaqs.length hwrap
    refine ⟨w1, _, h1, h2, ?_, ?_, h3⟩
    · rw [hc, hq, zero_add]
      exact wrap_int_of_range _ (by simp only [INT_MIN]; omega) hK
    · intro hpos
      have hne : dmaqs.length ≠ 0 := by omega
      rw [hs, if_neg hne, hidle]
      rfl
  · intro w e dmaq he hlo hhi
    obtain ⟨⟨rc, d⟩, hr⟩ := hops w.dev (fini_txq_cmd dmaq)
    refine ⟨rc, _, flush_requested_evq e, flush_step ops w dmaq evq e rc d he hr,
      getElem?_set_same _ _ _ _ he, ?_, ?_⟩
    · exact wrap_int_of_range _ (by omega) (by simp only [INT_MAX] at hhi ⊢; omega)
    · intro j hj
      exact getElem?_set_other _ _ _ _ hj

/-- Witness for C10 (amended): three flush calls on the freshly enabled EVQ 0
of the sample adapter. -/
theorem flush_tx_counts_requests_witness :
    ∃ w1 e1, flush_tx_each (fw_const (-EINVAL)) 0 [7, 7, 3] sample_world_unit
        = Outcome.ret () w1 ∧
      w1.nic.arch_extra.evq[0]? = some e1 ∧ e1.queues_flushing = 3 ∧
      e1.check_flushes = delayed_work.pending 0 := by
  obtain ⟨w1, e1, h1, h2, h3, h4, _⟩ :=
    (flush_tx_counts_requests (fw_const (-EINVAL)) (fun d _ => ⟨(-EINVAL, d), rfl⟩) 0).1
      sample_world_unit ⟨0, 0, delayed_work.idle, 0, 0, 0⟩ [7, 7, 3] rfl rfl rfl (by decide)
  exact ⟨w1, e1, h1, h2, h3, h4 (by decide)⟩

/-! ## The flush-completion scanner -/

theorem scan_ring_some (f : EventFormat) (ring : Nat → Nat) :
    ∀ (fuel i k : Nat), scan_ring f ring fuel i = some k →
      i ≤ k ∧ k < i + fuel ∧ is_tx_flush f (ring k) = true ∧
      ∀ j, i ≤ j → j < k → is_tx_flush f (ring j) = false := by
  intro fuel
  induction fuel with
  | zero => intro i k h; simp [scan_ring] at h
  | succ n ih =>
    intro i k h
    unfold scan_ring at h
    by_cases hm : is_tx_flush f (ring i) = true
    · rw [if_pos hm] at h
      cases h
      exact ⟨le_refl _, by omega, hm, fun j h1 h2 => by omega⟩
    · rw [if_neg hm] at h
      obtain ⟨h1, h2, h3, h4⟩ := ih (i + 1) k h
      refine ⟨by omega, by omega, h3, ?_⟩
      intro j hj1 hj2
      by_cases hji : j = i
      · subst hji; simpa using hm
      · exact h4 j (by omega) hj2

theorem scan_ring_none (f : EventFormat) (ring : Nat → Nat) :
    ∀ (fuel i : Nat), (∀ j, i ≤ j → j < i + fuel → is_tx_flush f (ring j) = false) →
      scan_ring f ring fuel i = none := by
  intro fuel
  induction fuel with
  | zero => intro i _; rfl
  | succ n ih =>
    intro i h
    unfold scan_ring
    have hi : is_tx_flush f (ring i) = false := h i (le_refl _) (by omega)
    rw [hi]
    simp only [Bool.false_eq_true, if_false]
    exact ih (i + 1) (fun j h1 h2 => h j (by omega) (by omega))

theorem scan_ring_found (f : EventFormat) (ring : Nat → Nat) (fuel : Nat)
    (h : ∃ j, j < fuel ∧ is_tx_flush f (ring j) = true) :
    ∃ i, scan_ring f ring fuel 0 = some i ∧ i < fuel ∧ is_tx_flush f (ring i) = true ∧
      ∀ j, j < i → is_tx_flush f (ring j) = false := by
  cases hs : scan_ring f ring fuel 0 with
  | none =>
    obtain ⟨j, hj, hm⟩ := h
    have hall : ∀ j, 0 ≤ j → j < 0 + fuel → is_tx_flush f (ring j) = false := by
      intro j _ hj2
      by_contra hne
      have htrue : is_tx_flush f (ring j) = true := by simpa using hne
      obtain ⟨fuel2, hf⟩ : ∃ m, m = fuel := ⟨fuel, rfl⟩
      clear hf fuel2
      have : ∀ (n i : Nat), i ≤ j → j < i + n → scan_ring f ring n i ≠ none := by
        intro n
        induction n with
        | zero => intro i h1 h2; omega
        | succ m ih =>
          intro i h1 h2
          unfold scan_ring
          by_cases hmi : is_tx_flush f (ring i) = true
          · rw [if_pos hmi]; simp
          · rw [if_neg hmi]
            have hij : i ≠ j := fun hij => hmi (hij ▸ htrue)
            exact ih (i + 1) (by omega) (by omega)
      exact this fuel 0 (Nat.zero_le _) hj2 hs
    rw [hall j (Nat.zero_le _) (by omega)] at hm
    cases hm
  | some i =>
    obtain ⟨_, h2, h3, h4⟩ := scan_ring_some f ring fuel 0 i hs
    exact ⟨i, rfl, by omega, h3, fun j hj => h4 j (Nat.zero_le _) hj⟩

theorem scan_ring_congr (f : EventFormat) (ring ring2 : Nat → Nat) :
    ∀ (fuel i : Nat), (∀ j, i ≤ j → j < i + fuel → ring2 j = ring j) →
      scan_ring f ring2 fuel i = scan_ring f ring fuel i := by
  intro fuel
  induction fuel with
  | zero => intro i _; rfl
  | succ n ih =>
    intro i h
    unfold scan_ring
    rw [h i (le_refl _) (by omega), ih (i + 1) (fun j h1 h2 => h j (by omega) (by omega))]

theorem check_for_flushes_found (f : EventFormat) (e : efhw_nic_ef10ct_evq)
    (ring : Nat → Nat) (i : Nat) (h0 : 0 ≤ e.queues_flushing)
    (hs : scan_ring f ring e.capacity 0 = some i) :
    ef10ct_check_for_flushes f e ring =
      if wrap_int (e.queues_flushing - 1) = 0 then
        { evq := { e with queues_flushing := wrap_int (e.queues_flushing - 1) }
          upcalls := [(e.nic, flush_queue_id f (ring i))]
          resched := none }
      else
        { evq := { e with
                   queues_flushing := wrap_int (e.queues_flushing - 1)
                   check_flushes := schedule_delayed_work e.check_flushes 100 }
          upcalls := [(e.nic, flush_queue_id f (ring i))]
          resched := some 100 } := by
  unfold ef10ct_check_for_flushes
  rw [if_neg (not_lt.mpr h0)]
  simp only [hs]

theorem check_for_flushes_not_found (f : EventFormat) (e : efhw_nic_ef10ct_evq)
    (ring : Nat → Nat) (h0 : 0 ≤ e.queues_flushing)
    (hs : scan_ring f ring e.capacity 0 = none) :
    ef10ct_check_for_flushes f e ring =
      { evq := { e with check_flushes := schedule_delayed_work e.check_flushes 100 }
        upcalls := []
        resched := some 100 } := by
  unfold ef10ct_check_for_flushes
  rw [if_neg (not_lt.mpr h0)]
  simp only [hs]

theorem wrap_int_pred (c : Int) (h0 : 0 ≤ c) (h1 : c ≤ INT_MAX) : wrap_int (c - 1) = c - 1 :=
  wrap_int_of_range _ (by simp only [INT_MIN]; omega) (by omega)

theorem check_flushes_runs_found (f : EventFormat) (rings : List (Nat → Nat)) :
    ∀ (e : efhw_nic_ef10ct_evq), e.queues_flushing = (rings.length : Int) →
      (rings.length : Int) ≤ INT_MAX →
      (∀ ring ∈ rings, ∃ j, j < e.capacity ∧ is_tx_flush f (ring j) = true) →
      (check_flushes_runs f e rings).length = rings.length ∧
      ∀ (j : Nat) (r : ScanResult), (check_flushes_runs f e rings)[j]? = some r →
        ∃ ring i, rings[j]? = some ring ∧ i < e.capacity ∧
          is_tx_flush f (ring i) = true ∧
          (∀ m, m < i → is_tx_flush f (ring m) = false) ∧
          r.upcalls = [(e.nic, flush_queue_id f (ring i))] ∧
          r.evq.queues_flushing = (rings.length : Int) - (j + 1) ∧
          r.resched = (if j + 1 < rings.length then some 100 else none) := by
  induction rings with
  | nil =>
    intro e _ _ _
    exact ⟨rfl, fun j r h => by simp [check_flushes_runs] at h⟩
  | cons ring rest ih =>
    intro e hq hmax hmatch
    obtain ⟨i, hs, hi, hm, hfirst⟩ :=
      scan_ring_found f ring e.capacity (hmatch ring (List.mem_cons_self _ _))
    have hlen : ((ring :: rest).length : Int) = (rest.length : Int) + 1 := by
      simp [List.length_cons]
    have hq0 : (0 : Int) ≤ e.queues_flushing := by rw [hq]; omega
    have hwrap : wrap_int (e.queues_flushing - 1) = (rest.length : Int) := by
      rw [wrap_int_pred _ hq0 (by rw [hq]; exact hmax), hq, hlen]; omega
    have hrun : check_flushes_run f e ring =
        if (rest.length : Int) = 0 then
          { evq := { e with queues_flushing := (rest.length : Int),
                            check_flushes := delayed_work.idle }
            upcalls := [(e.nic, flush_queue_id f (ring i))]
            resched := none }
        else
          { evq := { e with
                     queues_flushing := (rest.length : Int)
                     check_flushes := delayed_work.pending 100 }
            upcalls := [(e.nic, flush_queue_id f (ring i))]
            resched := some 100 } := by
      unfold check_flushes_run
      rw [check_for_flushes_found f { e with check_flushes := delayed_work.idle } ring i hq0 hs]
      simp only [hwrap]
      rfl
    have hevq : (check_flushes_run f e ring).evq.queues_flushing = (rest.length : Int) ∧
        (check_flushes_run f e ring).evq.capacity = e.capacity ∧
        (check_flushes_run f e ring).evq.nic = e.nic := by
      rw [hrun]; split <;> exact ⟨rfl, rfl, rfl⟩
    obtain ⟨hq1, hcap, hnic⟩ := hevq
    have ih1 := ih (check_flushes_run f e ring).evq hq1 (by rw [hlen] at hmax; omega)
      (fun r hr => by rw [hcap]; exact hmatch r (List.mem_cons_of_mem _ hr))
    obtain ⟨ihlen, ihall⟩ := ih1
    constructor
    · simp only [check_flushes_runs, List.length_cons, ihlen]
    · intro j r hr
      cases j with
      | zero =>
        simp only [check_flushes_runs, List.getElem?_cons_zero, Option.some.injEq] at hr
        subst hr
        refine ⟨ring, i, by simp, hi, hm, hfirst, ?_, ?_, ?_⟩
        · rw [hrun]; split <;> rfl
        · rw [hq1, hlen]; push_cast; omega
        · rw [hrun]
          by_cases hz : (rest.length : Int) = 0
          · have hz2 : rest.length = 0 := by omega
            simp [hz2]
          · have hz2 : rest.length ≠ 0 := by omega
            have hz3 : 0 < rest.length := by omega
            simp [hz2, hz3]
      | succ n =>
        simp only [check_flushes_runs, List.getElem?_cons_succ] at hr
        obtain ⟨ring2, i2, h1, h2, h3, h4, h5, h6, h7⟩ := ihall n r hr
        refine ⟨ring2, i2, by simpa using h1, by rw [← hcap]; exact h2, h3, h4,
          by rw [← hnic]; exact h5, ?_, ?_⟩
        · rw [h6, hlen]; push_cast; omega
        · rw [h7]
          simp only [List.length_cons, Nat.add_lt_add_iff_right]

/-- C11: for every K >= 1 (within the range of the `int` counter), starting
from `queues_flushing = K`, K sequential scanner runs that each find a TX flush
event among the first `capacity` ring entries produce K results: run j (from 0)
invokes the upcall once, with the queue id of the first matching entry of its
ring, leaves the counter at K - (j + 1), and reschedules with delay 100 exactly
when it is not the last run; the last run leaves the counter at 0 and does not
reschedule. -/
theorem flush_scans_drain_counter (f : EventFormat) (e : efhw_nic_ef10ct_evq)
    (rings : List (Nat → Nat)) (hK : 1 ≤ rings.length)
    (hq : e.queues_flushing = (rings.length : Int))
    (hmax : (rings.length : Int) ≤ INT_MAX)
    (hmatch : ∀ ring ∈ rings, ∃ j, j < e.capacity ∧ is_tx_flush f (ring j) = true) :
    (check_flushes_runs f e rings).length = rings.length ∧
    (∀ (j : Nat) (r : ScanResult), (check_flushes_runs f e rings)[j]? = some r →
      ∃ ring i, rings[j]? = some ring ∧ i < e.capacity ∧
        is_tx_flush f (ring i) = true ∧
        (∀ m, m < i → is_tx_flush f (ring m) = false) ∧
        r.upcalls = [(e.nic, flush_queue_id f (ring i))] ∧
        r.evq.queues_flushing = (rings.length : Int) - (j + 1) ∧
        r.resched = (if j + 1 < rings.length then some 100 else none)) ∧
    ∃ last, (check_flushes_runs f e rings)[rings.length - 1]? = some last ∧
      last.evq.queues_flushing = 0 ∧ last.resched = none := by
  obtain ⟨hlen, hall⟩ := check_flushes_runs_found f rings e hq hmax hmatch
  refine ⟨hlen, hall, ?_⟩
  have hlt : rings.length - 1 < (check_flushes_runs f e rings).length := by omega
  refine ⟨(check_flushes_runs f e rings)[rings.length - 1], List.getElem?_eq_getElem hlt, ?_⟩
  obtain ⟨_, _, _, _, _, _, _, h6, h7⟩ :=
    hall (rings.length - 1) _ (List.getElem?_eq_getElem hlt)
  constructor
  · rw [h6]; omega
  · rw [h7]
    have : ¬ (rings.length - 1 + 1 < rings.length) := by omega
    simp [this]

/-- Witness for C11: capacity 4, K = 1, the flush event of queue 7 at ring
slot 2: the run calls the upcall with 7, leaves the counter at 0 and does not
reschedule. -/
theorem flush_scans_drain_counter_witness :
    (∃ last, (check_flushes_runs sample_format (sample_evq 1) [sample_ring 2 7])[0]? = some last ∧
      last.evq.queues_flushing = 0 ∧ last.resched = none) ∧
    (check_flushes_runs sample_format (sample_evq 1) [sample_ring 2 7]).map
      (fun r => r.upcalls) = [[(64, 7)]] :=
  ⟨(flush_scans_drain_counter sample_format (sample_evq 1) [sample_ring 2 7]
      (by decide) (by decide) (by decide)
      (fun ring h => by
        rw [List.mem_singleton] at h
        subst h
        exact ⟨2, by decide, by decide⟩)).2.2,
    by decide⟩

/-- C12: for every EVQ whose `queues_flushing` is negative and every ring
content, the work function makes no upcall, leaves the EVQ record (the counter
included) as it is and does not call `schedule_delayed_work`. -/
theorem check_for_flushes_after_disable (f : EventFormat) (e : efhw_nic_ef10ct_evq)
    (ring : Nat → Nat) (h : e.queues_flushing < 0) :
    ef10ct_check_for_flushes f e ring = { evq := e, upcalls := [], resched := none } := by
  unfold ef10ct_check_for_flushes
  rw [if_pos h]

/-- Witness for C12: the sample EVQ with the sentinel -1 and a ring that holds
a flush event at slot 0. -/
theorem check_for_flushes_after_disable_witness :
    ef10ct_check_for_flushes sample_format (sample_evq (-1)) (sample_ring 0 7)
      = { evq := sample_evq (-1), upcalls := [], resched := none } :=
  check_for_flushes_after_disable sample_format (sample_evq (-1)) (sample_ring 0 7) (by decide)

theorem is_tx_flush_iff (f : EventFormat) (q : Nat) :
    is_tx_flush f q = true ↔
      (CI_QWORD_FIELD q f.EFCT_EVENT_TYPE_LBN f.EFCT_EVENT_TYPE_WIDTH
          = f.EFCT_EVENT_TYPE_CONTROL ∧
        CI_QWORD_FIELD q f.EFCT_CTRL_SUBTYPE_LBN f.EFCT_CTRL_SUBTYPE_WIDTH
          = f.EFCT_CTRL_EV_FLUSH ∧
        CI_QWORD_FIELD q f.EFCT_FLUSH_TYPE_LBN f.EFCT_FLUSH_TYPE_WIDTH
          = f.EFCT_FLUSH_TYPE_TX) := by
  unfold is_tx_flush
  simp only [Bool.and_eq_true, decide_eq_true_eq]
  tauto

theorem is_tx_flush_false_iff (f : EventFormat) (q : Nat) :
    is_tx_flush f q = false ↔
      ¬ (CI_QWORD_FIELD q f.EFCT_EVENT_TYPE_LBN f.EFCT_EVENT_TYPE_WIDTH
          = f.EFCT_EVENT_TYPE_CONTROL ∧
        CI_QWORD_FIELD q f.EFCT_CTRL_SUBTYPE_LBN f.EFCT_CTRL_SUBTYPE_WIDTH
          = f.EFCT_CTRL_EV_FLUSH ∧
        CI_QWORD_FIELD q f.EFCT_FLUSH_TYPE_LBN f.EFCT_FLUSH_TYPE_WIDTH
          = f.EFCT_FLUSH_TYPE_TX) := by
  rw [← is_tx_flush_iff]
  cases is_tx_flush f q <;> simp

/-- C13: for every EVQ with non-negative `queues_flushing` and every ring
content, the result of the work function depends on the first `capacity` ring
entries only; if one of them has event type = control, control subtype = flush
and flush type = TX, the upcall is made exactly once, with the queue-id field
of the lowest-index such entry; if none of the first `capacity` entries passes
the three tests, no upcall is made. -/
theorem check_for_flushes_scan (f : EventFormat) (e : efhw_nic_ef10ct_evq)
    (ring : Nat → Nat) (h0 : 0 ≤ e.queues_flushing) :
    (∀ ring2 : Nat → Nat, (∀ j, j < e.capacity → ring2 j = ring j) →
      ef10ct_check_for_flushes f e ring2 = ef10ct_check_for_flushes f e ring) ∧
    ((∃ j, j < e.capacity ∧
        CI_QWORD_FIELD (ring j) f.EFCT_EVENT_TYPE_LBN f.EFCT_EVENT_TYPE_WIDTH
          = f.EFCT_EVENT_TYPE_CONTROL ∧
        CI_QWORD_FIELD (ring j) f.EFCT_CTRL_SUBTYPE_LBN f.EFCT_CTRL_SUBTYPE_WIDTH
          = f.EFCT_CTRL_EV_FLUSH ∧
        CI_QWORD_FIELD (ring j) f.EFCT_FLUSH_TYPE_LBN f.EFCT_FLUSH_TYPE_WIDTH
          = f.EFCT_FLUSH_TYPE_TX) →
      ∃ i, i < e.capacity ∧
        (CI_QWORD_FIELD (ring i) f.EFCT_EVENT_TYPE_LBN f.EFCT_EVENT_TYPE_WIDTH
            = f.EFCT_EVENT_TYPE_CONTROL ∧
          CI_QWORD_FIELD (ring i) f.EFCT_CTRL_SUBTYPE_LBN f.EFCT_CTRL_SUBTYPE_WIDTH
            = f.EFCT_CTRL_EV_FLUSH ∧
          CI_QWORD_FIELD (ring i) f.EFCT_FLUSH_TYPE_LBN f.EFCT_FLUSH_TYPE_WIDTH
            = f.EFCT_FLUSH_TYPE_TX) ∧
        (∀ j, j < i →
          ¬ (CI_QWORD_FIELD (ring j) f.EFCT_EVENT_TYPE_LBN f.EFCT_EVENT_TYPE_WIDTH
              = f.EFCT_EVENT_TYPE_CONTROL ∧
            CI_QWORD_FIELD (ring j) f.EFCT_CTRL_SUBTYPE_LBN f.EFCT_CTRL_SUBTYPE_WIDTH
              = f.EFCT_CTRL_EV_FLUSH ∧
            CI_QWORD_FIELD (ring j) f.EFCT_FLUSH_TYPE_LBN f.EFCT_FLUSH_TYPE_WIDTH
              = f.EFCT_FLUSH_TYPE_TX)) ∧
        (ef10ct_check_for_flushes f e ring).upcalls =
          [(e.nic, wrap_int (CI_QWORD_FIELD (ring i)
            f.EFCT_FLUSH_QUEUE_ID_LBN f.EFCT_FLUSH_QUEUE_ID_WIDTH : Nat))]) ∧
    ((∀ j, j < e.capacity →
        ¬ (CI_QWORD_FIELD (ring j) f.EFCT_EVENT_TYPE_LBN f.EFCT_EVENT_TYPE_WIDTH
            = f.EFCT_EVENT_TYPE_CONTROL ∧
          CI_QWORD_FIELD (ring j) f.EFCT_CTRL_SUBTYPE_LBN f.EFCT_CTRL_SUBTYPE_WIDTH
            = f.EFCT_CTRL_EV_FLUSH ∧
          CI_QWORD_FIELD (ring j) f.EFCT_FLUSH_TYPE_LBN f.EFCT_FLUSH_TYPE_WIDTH
            = f.EFCT_FLUSH_TYPE_TX)) →
      (ef10ct_check_for_flushes f e ring).upcalls = []) := by
  refine ⟨?_, ?_, ?_⟩
  · intro ring2 hsame
    have hscan : scan_ring f ring2 e.capacity 0 = scan_ring f ring e.capacity 0 :=
      scan_ring_congr f ring ring2 e.capacity 0 (fun j _ hj => hsame j (by omega))
    cases hs : scan_ring f ring e.capacity 0 with
    | none =>
      rw [check_for_flushes_not_found f e ring h0 hs,
        check_for_flushes_not_found f e ring2 h0 (hscan.trans hs)]
    | some i =>
      obtain ⟨_, hi, _, _⟩ := scan_ring_some f ring e.capacity 0 i hs
      rw [check_for_flushes_found f e ring i h0 hs,
        check_for_flushes_found f e ring2 i h0 (hscan.trans hs), hsame i (by omega)]
  · rintro ⟨j, hj, hmatch⟩
    obtain ⟨i, hs, hi, hm, hfirst⟩ := scan_ring_found f ring e.capacity
      ⟨j, hj, (is_tx_flush_iff f (ring j)).mpr hmatch⟩
    refine ⟨i, hi, (is_tx_flush_iff f (ring i)).mp hm,
      fun m hm2 => (is_tx_flush_false_iff f (ring m)).mp (hfirst m hm2), ?_⟩
    rw [check_for_flushes_found f e ring i h0 hs]
    split <;> rfl
  · intro hnone
    have hs := scan_ring_none f ring e.capacity 0
      (fun j _ hj => (is_tx_flush_false_iff f (ring j)).mpr (hnone j (by omega)))
    rw [check_for_flushes_not_found f e ring h0 hs]

/-- Witness for C13: a six-entry EVQ over the mixed sample ring, whose first
three entries are non-zero and each fail one of the three tests and whose
entries 3 and 4 are the TX flush events of queues 7 and 5; the one upcall is
for queue 7. -/
theorem check_for_flushes_scan_witness :
    (ef10ct_check_for_flushes sample_format { sample_evq 2 with capacity := 6 }
      sample_mixed_ring).upcalls = [(64, 7)] := by
  obtain ⟨i, hi, hm, hfirst, hup⟩ :=
    (check_for_flushes_scan sample_format { sample_evq 2 with capacity := 6 }
      sample_mixed_ring (by decide)).2.1 ⟨3, by decide, by decide, by decide, by decide⟩
  have hi6 : i < 6 := hi
  interval_cases i
  · exact absurd hm.1 (by decide)
  · exact absurd hm.2.1 (by decide)
  · exact absurd hm.2.2 (by decide)
  · rw [hup]; decide
  · exact absurd ⟨by decide, by decide, by decide⟩ (hfirst 3 (by decide))
  · exact absurd hm.1 (by decide)

/-- Counterexample to C14 as stated: one flush outstanding on the sample EVQ
and no flush event among its 4 ring entries (the only one sits at slot 5): the
run leaves the counter at 1, not at 0. -/
theorem check_for_flushes_no_match_counterexample :
    (sample_evq 1).queues_flushing = 1 ∧
    (∀ j, j < (sample_evq 1).capacity → is_tx_flush sample_format (sample_ring 5 7 j) = false) ∧
    (check_flushes_run sample_format (sample_evq 1) (sample_ring 5 7)).evq.queues_flushing = 1 := by
  refine ⟨rfl, ?_, by decide⟩
  intro j hj
  have h4 : j < 4 := hj
  interval_cases j <;> decide

/-- C14 (amended): for every EVQ whose `queues_flushing = c` is a non-negative
`int` and every ring content, the work function leaves the counter at `c - 1`
when one of the first `capacity` ring entries is a TX flush event, and leaves
it at `c` when none is: `atomic_dec_and_test` is reached only after a match. -/
theorem check_for_flushes_counter (f : EventFormat) (e : efhw_nic_ef10ct_evq)
    (ring : Nat → Nat) (h0 : 0 ≤ e.queues_flushing) (h1 : e.queues_flushing ≤ INT_MAX) :
    ((∃ j, j < e.capacity ∧ is_tx_flush f (ring j) = true) →
      (ef10ct_check_for_flushes f e ring).evq.queues_flushing = e.queues_flushing - 1) ∧
    ((∀ j, j < e.capacity → is_tx_flush f (ring j) = false) →
      (ef10ct_check_for_flushes f e ring).evq.queues_flushing = e.queues_flushing) := by
  constructor
  · intro hex
    obtain ⟨i, hs, _, _, _⟩ := scan_ring_found f ring e.capacity hex
    rw [check_for_flushes_found f e ring i h0 hs]
    split <;> exact wrap_int_pred _ h0 h1
  · intro hnone
    have hs := scan_ring_none f ring e.capacity 0 (fun j _ hj => hnone j (by omega))
    rw [check_for_flushes_not_found f e ring h0 hs]

/-- Witness for C14 (amended): two flushes outstanding on the sample EVQ and
the flush event of queue 7 at slot 0: the counter goes to 1. -/
theorem check_for_flushes_counter_witness :
    (ef10ct_check_for_flushes sample_format (sample_evq 2) (sample_ring 0 7)).evq.queues_flushing
      = (sample_evq 2).queues_flushing - 1 :=
  (check_for_flushes_counter sample_format (sample_evq 2) (sample_ring 0 7)
    (by decide) (by decide)).1 ⟨0, by decide, by decide⟩

theorem check_flushes_runs_no_match (f : EventFormat) (rings : List (Nat → Nat)) :
    ∀ (e : efhw_nic_ef10ct_evq), 0 ≤ e.queues_flushing →
      (∀ ring ∈ rings, ∀ j, j < e.capacity → is_tx_flush f (ring j) = false) →
      (check_flushes_runs f e rings).length = rings.length ∧
      ∀ r ∈ check_flushes_runs f e rings,
        r.resched = some 100 ∧ r.upcalls = [] ∧ r.evq.queues_flushing = e.queues_flushing ∧
        r.evq.check_flushes = delayed_work.pending 100 := by
  induction rings with
  | nil =>
    intro e _ _
    exact ⟨rfl, fun r hr => by simp [check_flushes_runs] at hr⟩
  | cons ring rest ih =>
    intro e h0 hnone
    have hs := scan_ring_none f ring e.capacity 0
      (fun j _ hj => hnone ring (List.mem_cons_self _ _) j (by omega))
    have hrun : check_flushes_run f e ring =
        { evq := { e with check_flushes := delayed_work.pending 100 }
          upcalls := []
          resched := some 100 } := by
      unfold check_flushes_run
      rw [check_for_flushes_not_found f { e with check_flushes := delayed_work.idle } ring h0 hs]
      rfl
    obtain ⟨ihlen, ihall⟩ := ih (check_flushes_run f e ring).evq (by rw [hrun]; exact h0)
      (fun r hr j hj => hnone r (List.mem_cons_of_mem _ hr) j (by rw [hrun] at hj; exact hj))
    constructor
    · simp only [check_flushes_runs, List.length_cons, ihlen]
    · intro r hr
      simp only [check_flushes_runs, List.mem_cons] at hr
      rcases hr with hr | hr
      · subst hr
        rw [hrun]
        exact ⟨rfl, rfl, rfl, rfl⟩
      · obtain ⟨h1, h2, h3, h4⟩ := ihall r hr
        refine ⟨h1, h2, ?_, h4⟩
        rw [h3, hrun]

/-- C15: for every EVQ with non-negative `queues_flushing` and every ring
content, the work function calls `schedule_delayed_work` with delay 100 unless
a TX flush event was found among the first `capacity` entries and the counter
is zero after the decrement, in which case it does not call it. With no
matching entry, any number of consecutive runs all reschedule with delay 100,
make no upcall and leave the counter as it was. -/
theorem check_for_flushes_reschedule (f : EventFormat) (e : efhw_nic_ef10ct_evq)
    (ring : Nat → Nat) (h0 : 0 ≤ e.queues_flushing) :
    (((∃ j, j < e.capacity ∧ is_tx_flush f (ring j) = true) ∧
        (ef10ct_check_for_flushes f e ring).evq.queues_flushing = 0) →
      (ef10ct_check_for_flushes f e ring).resched = none) ∧
    (¬ ((∃ j, j < e.capacity ∧ is_tx_flush f (ring j) = true) ∧
        (ef10ct_check_for_flushes f e ring).evq.queues_flushing = 0) →
      (ef10ct_check_for_flushes f e ring).resched = some 100) ∧
    (∀ rings : List (Nat → Nat),
      (∀ ring ∈ rings, ∀ j, j < e.capacity → is_tx_flush f (ring j) = false) →
      (check_flushes_runs f e rings).length = rings.length ∧
      ∀ r ∈ check_flushes_runs f e rings,
        r.resched = some 100 ∧ r.upcalls = [] ∧ r.evq.queues_flushing = e.queues_flushing ∧
        r.evq.check_flushes = delayed_work.pending 100) := by
  refine ⟨?_, ?_, fun rings hnone => check_flushes_runs_no_match f rings e h0 hnone⟩
  · rintro ⟨hex, hz⟩
    obtain ⟨i, hs, _, _, _⟩ := scan_ring_found f ring e.capacity hex
    rw [check_for_flushes_found f e ring i h0 hs] at hz ⊢
    by_cases hc : wrap_int (e.queues_flushing - 1) = 0
    · rw [if_pos hc]
    · rw [if_neg hc] at hz
      exact absurd hz hc
  · intro hnot
    cases hs : scan_ring f ring e.capacity 0 with
    | none => rw [check_for_flushes_not_found f e ring h0 hs]
    | some i =>
      obtain ⟨_, hi, hm, _⟩ := scan_ring_some f ring e.capacity 0 i hs
      rw [check_for_flushes_found f e ring i h0 hs] at hnot ⊢
      by_cases hc : wrap_int (e.queues_flushing - 1) = 0
      · rw [if_pos hc] at hnot
        exact absurd ⟨⟨i, by omega, hm⟩, hc⟩ hnot
      · rw [if_neg hc]

/-- Witness for C15: three runs on the sample EVQ with one flush outstanding
and an empty ring all reschedule with delay 100. -/
theorem check_for_flushes_reschedule_witness :
    (check_flushes_runs sample_format (sample_evq 1)
      [fun _ => 0, fun _ => 0, fun _ => 0]).length = 3 ∧
    ∀ r ∈ check_flushes_runs sample_format (sample_evq 1) [fun _ => 0, fun _ => 0, fun _ => 0],
      r.resched = some 100 ∧ r.upcalls = [] ∧
      r.evq.queues_flushing = (sample_evq 1).queues_flushing ∧
      r.evq.check_flushes = delayed_work.pending 100 :=
  (check_for_flushes_reschedule sample_format (sample_evq 1) (fun _ => 0)
    (by decide)).2.2 [fun _ => 0, fun _ => 0, fun _ => 0]
    (fun ring hr j _ => by
      simp only [List.mem_cons, List.mem_singleton, List.not_mem_nil, or_false, or_self] at hr
      subst hr
      show is_tx_flush sample_format 0 = false
      decide)

/-! ## Disable, design parameters and the operations without hardware action -/

theorem disable_step {σ : Type} (ops : FwOps σ) (w : World σ) (evq : Nat) (ts : Int)
    (e : efhw_nic_ef10ct_evq) (rc : Int) (d : σ)
    (hevq : evq < w.nic.arch_extra.evq_n)
    (he : w.nic.arch_extra.evq[evq]? = some e)
    (hrpc : ops w.dev (fini_evq_cmd evq) = some (rc, d)) :
    ef10ct_nic_event_queue_disable ops w evq ts =
      Outcome.ret ()
        { nic := { w.nic with
                   arch_extra := { w.nic.arch_extra with
                                   evq := w.nic.arch_extra.evq.set evq (disabled_evq e) } }
          dev := d
          rpcs := w.rpcs ++ [fini_evq_cmd evq] } := by
  have hnot : ¬ (evq ≥ w.nic.arch_extra.evq_n) := by omega
  unfold ef10ct_nic_event_queue_disable
  simp only [hnot, if_false]
  rw [evq_modify_of_read _ _ _ e he]
  simp only
  rw [fw_rpc_of_ops ops _ _ rc d (by exact hrpc)]
  rfl

/-- C16: for every EVQ id below `evq_n` and every prior state of its record,
disable returns with `queues_flushing = -1` and no scheduled scanner, whatever
status the fini-EVQ RPC gives; a second disable right after also returns and
leaves the adapter state, hence the EVQ record, equal to the state after the
first call. -/
theorem event_queue_disable_idempotent {σ : Type} (ops : FwOps σ)
    (hops : ∀ d c, ∃ r, ops d c = some r) (w : World σ) (evq : Nat)
    (e : efhw_nic_ef10ct_evq) (ts1 ts2 : Int)
    (hevq : evq < w.nic.arch_extra.evq_n)
    (he : w.nic.arch_extra.evq[evq]? = some e) :
    ∃ w1 w2 e1, ef10ct_nic_event_queue_disable ops w evq ts1 = Outcome.ret () w1 ∧
      w1.nic.arch_extra.evq[evq]? = some e1 ∧
      e1.queues_flushing = -1 ∧ e1.check_flushes = delayed_work.idle ∧
      ef10ct_nic_event_queue_disable ops w1 evq ts2 = Outcome.ret () w2 ∧
      w2.nic = w1.nic := by
  obtain ⟨⟨rc1, d1⟩, hr1⟩ := hops w.dev (fini_evq_cmd evq)
  obtain ⟨⟨rc2, d2⟩, hr2⟩ := hops d1 (fini_evq_cmd evq)
  have h1 := disable_step ops w evq ts1 e rc1 d1 hevq he hr1
  have he1 : (w.nic.arch_extra.evq.set evq (disabled_evq e))[evq]? = some (disabled_evq e) :=
    getElem?_set_same _ _ _ _ he
  have h2 := disable_step ops
    { nic := { w.nic with
               arch_extra := { w.nic.arch_extra with
                               evq := w.nic.arch_extra.evq.set evq (disabled_evq e) } }
      dev := d1
      rpcs := w.rpcs ++ [fini_evq_cmd evq] } evq ts2 (disabled_evq e) rc2 d2 hevq he1 hr2
  refine ⟨_, _, disabled_evq e, h1, he1, rfl, rfl, h2, ?_⟩
  simp only [List.set_set]
  rfl

/-- Witness for C16: EVQ 0 of the sample adapter, with a firmware that
answers every command with `-EINVAL`. -/
theorem event_queue_disable_idempotent_witness :
    ∃ w1 w2 e1, ef10ct_nic_event_queue_disable (fw_const (-EINVAL)) sample_world_unit 0 0
        = Outcome.ret () w1 ∧
      w1.nic.arch_extra.evq[0]? = some e1 ∧
      e1.queues_flushing = -1 ∧ e1.check_flushes = delayed_work.idle ∧
      ef10ct_nic_event_queue_disable (fw_const (-EINVAL)) w1 0 0 = Outcome.ret () w2 ∧
      w2.nic = w1.nic :=
  event_queue_disable_idempotent (fw_const (-EINVAL)) (fun d _ => ⟨(-EINVAL, d), rfl⟩)
    sample_world_unit 0 ⟨0, 0, delayed_work.idle, 0, 0, 0⟩ 0 0 (by decide) rfl

/-- C18 as stated fails: on the sample adapter `ef10ct_filter_insert` returns 0
(success) and `ef10ct_filter_query` returns `-EOPNOTSUPP`, while
`ef10ct_flush_rx_dma_channel` returns `-ENOSYS`; the three values differ. -/
theorem stub_ops_counterexample :
    ef10ct_filter_insert sample_world_unit () 0 0 () 0 = Outcome.ret 0 sample_world_unit ∧
    ef10ct_filter_query sample_world_unit 0 () = Outcome.ret (-EOPNOTSUPP) sample_world_unit ∧
    ef10ct_flush_rx_dma_channel sample_world_unit 0 0
      = Outcome.ret (-ENOSYS) sample_world_unit ∧
    (0 : Int) ≠ -ENOSYS ∧ -EOPNOTSUPP ≠ -ENOSYS :=
  ⟨rfl, rfl, rfl, by decide, by decide⟩

/-- C18 (amended): for every input, receive-queue flush, filter redirect and
multicast/unicast blocking return `-ENOSYS`, filter query returns
`-EOPNOTSUPP`, filter insert and receive-queue init return 0, and each of them
returns in the unchanged world. -/
theorem stub_ops_results {σ S M I P : Type} (w : World σ) (client_id dmaq token flags : Nat)
    (filter_id rxq : Int) (spec : S) (mask : M) (info : I) (params : P) (block : Bool) :
    ef10ct_flush_rx_dma_channel w client_id dmaq = Outcome.ret (-ENOSYS) w ∧
    ef10ct_filter_redirect w filter_id spec = Outcome.ret (-ENOSYS) w ∧
    ef10ct_multicast_block w block = Outcome.ret (-ENOSYS) w ∧
    ef10ct_unicast_block w block = Outcome.ret (-ENOSYS) w ∧
    ef10ct_filter_query w filter_id info = Outcome.ret (-EOPNOTSUPP) w ∧
    ef10ct_filter_insert w spec rxq token mask flags = Outcome.ret 0 w ∧
    ef10ct_dmaq_rx_q_init w client_id params = Outcome.ret 0 w :=
  ⟨rfl, rfl, rfl, rfl, rfl, rfl, rfl⟩

theorem dp_get_set (dp : efab_nic_design_parameters) (p q : dp_param) (v : Int) :
    dp_get (dp_set dp p v) q = if q = p then v else dp_get dp q := by
  cases p <;> cases q <;> simp [dp_get, dp_set]

theorem dp_set_known_size (dp : efab_nic_design_parameters) (p : dp_param) (v : Int) :
    (dp_set dp p v).known_size = dp.known_size := by
  cases p <;> rfl

theorem dp_run_spec (env : DpEnv) (ps : List dp_param) :
    ∀ dp : efab_nic_design_parameters,
      ((dp_run env ps dp).1 = 0 ∨ (dp_run env ps dp).1 = -ENODEV) ∧
      ((dp_run env ps dp).1 = 0 ↔
        ∀ p ∈ ps, env.EFAB_NIC_DP_KNOWN dp.known_size p = true ∨
          env.EFAB_NIC_DP_DEFAULT p = dp_value env p) ∧
      ((dp_run env ps dp).1 = 0 →
        (dp_run env ps dp).2.known_size = dp.known_size ∧
        ∀ p, dp_get (dp_run env ps dp).2 p =
          if p ∈ ps ∧ env.EFAB_NIC_DP_KNOWN dp.known_size p = true
          then dp_value env p else dp_get dp p) := by
  induction ps with
  | nil =>
    intro dp
    simp [dp_run]
  | cons p0 rest ih =>
    intro dp
    by_cases hk : env.EFAB_NIC_DP_KNOWN dp.known_size p0 = true
    · have hrun : dp_run env (p0 :: rest) dp = dp_run env rest (dp_set dp p0 (dp_value env p0)) := by
        simp [dp_run, hk]
      obtain ⟨h1, h2, h3⟩ := ih (dp_set dp p0 (dp_value env p0))
      rw [dp_set_known_size] at h2 h3
      rw [hrun]
      refine ⟨h1, ?_, ?_⟩
      · rw [h2]
        constructor
        · intro h p hp
          rcases List.mem_cons.mp hp with hp | hp
          · subst hp; exact Or.inl hk
          · exact h p hp
        · intro h p hp
          exact h p (List.mem_cons_of_mem _ hp)
      · intro hz
        obtain ⟨hks, hget⟩ := h3 hz
        refine ⟨hks, ?_⟩
        intro p
        rw [hget p, dp_get_set]
        by_cases hp0 : p = p0
        · subst hp0
          simp [hk]
        · simp [hp0]
    · by_cases hd : dp_value env p0 ≠ env.EFAB_NIC_DP_DEFAULT p0
      · have hrun : dp_run env (p0 :: rest) dp = (-ENODEV, dp) := by
          simp [dp_run, hk, hd]
        rw [hrun]
        have hne : (-ENODEV : Int) ≠ 0 := by decide
        refine ⟨Or.inr rfl, ?_, fun hz => absurd hz hne⟩
        constructor
        · intro hz; exact absurd hz hne
        · intro h
          rcases h p0 (List.mem_cons_self _ _) with h | h
          · exact absurd h hk
          · exact absurd h.symm hd
      · have hd2 : dp_value env p0 = env.EFAB_NIC_DP_DEFAULT p0 := by
          by_contra hne; exact hd hne
        have hrun : dp_run env (p0 :: rest) dp = dp_run env rest dp := by
          simp [dp_run, hk, hd2]
        obtain ⟨h1, h2, h3⟩ := ih dp
        rw [hrun]
        refine ⟨h1, ?_, ?_⟩
        · rw [h2]
          constructor
          · intro h p hp
            rcases List.mem_cons.mp hp with hp | hp
            · subst hp; exact Or.inr hd2.symm
            · exact h p hp
          · intro h p hp
            exact h p (List.mem_cons_of_mem _ hp)
        · intro hz
          obtain ⟨hks, hget⟩ := h3 hz
          refine ⟨hks, ?_⟩
          intro p
          rw [hget p]
          by_cases hp0 : p = p0
          · subst hp0
            simp [hk]
          · simp [hp0]

theorem dp_lines_complete (p : dp_param) : p ∈ dp_lines := by
  cases p <;> simp [dp_lines]

/-- C17: `ef10ct_design_parameters` returns 0 if and only if, for each of the
six parameters, the caller's structure knows the parameter or the caller's
default equals the adapter's value (`tx_aperture_bytes` 0x1000, `tx_fifo_bytes`
0x8000, `timestamp_subnano_bits` 2, `unsol_credit_seq_mask` 0x7f); otherwise it
returns `-ENODEV`. On success every known parameter holds the adapter's value
and every parameter that is not known holds what the caller left there. -/
theorem design_parameters_spec (env : DpEnv) (dp : efab_nic_design_parameters) :
    ((ef10ct_design_parameters env dp).1 = 0 ↔
      ∀ p : dp_param, env.EFAB_NIC_DP_KNOWN dp.known_size p = true ∨
        env.EFAB_NIC_DP_DEFAULT p = dp_value env p) ∧
    ((ef10ct_design_parameters env dp).1 ≠ 0 → (ef10ct_design_parameters env dp).1 = -ENODEV) ∧
    ((ef10ct_design_parameters env dp).1 = 0 →
      ∀ p : dp_param,
        (env.EFAB_NIC_DP_KNOWN dp.known_size p = true →
          dp_get (ef10ct_design_parameters env dp).2 p = dp_value env p) ∧
        (env.EFAB_NIC_DP_KNOWN dp.known_size p = false →
          dp_get (ef10ct_design_parameters env dp).2 p = dp_get dp p)) ∧
    (dp_value env dp_param.tx_aperture_bytes = 0x1000 ∧
      dp_value env dp_param.tx_fifo_bytes = 0x8000 ∧
      dp_value env dp_param.timestamp_subnano_bits = 2 ∧
      dp_value env dp_param.unsol_credit_seq_mask = 0x7f) := by
  obtain ⟨h1, h2, h3⟩ := dp_run_spec env dp_lines dp
  unfold ef10ct_design_parameters
  refine ⟨?_, ?_, ?_, ⟨rfl, rfl, rfl, rfl⟩⟩
  · rw [h2]
    constructor
    · intro h p; exact h p (dp_lines_complete p)
    · intro h p _; exact h p
  · intro hne
    rcases h1 with h | h
    · exact absurd h hne
    · exact h
  · intro hz p
    obtain ⟨_, hget⟩ := h3 hz
    constructor
    · intro hk
      rw [hget p, if_pos ⟨dp_lines_complete p, hk⟩]
    · intro hk
      rw [hget p, if_neg (fun h => by rw [hk] at h; exact absurd h.2 (by decide))]

/-- Witness-style evaluation for C17: a caller that knows only the first two
parameters and assumes a credit mask of 0 is refused with `-ENODEV`. -/
theorem design_parameters_spec_witness :
    (ef10ct_design_parameters sample_dp_env ⟨2, 0, 0, 0, 0, 0, 0⟩).1 = -ENODEV :=
  (design_parameters_spec sample_dp_env ⟨2, 0, 0, 0, 0, 0, 0⟩).2.1 (by decide)

/-! ## The simulated firmware -/

theorem find_unbound_txq_none (txqs : List efct_test_txq) :
    ∀ (fuel i : Nat),
      (∀ j, i ≤ j → j < i + fuel → ∃ t, txqs[j]? = some t ∧ 0 ≤ t.evq) →
      find_unbound_txq txqs fuel i = some (-1) := by
  intro fuel
  induction fuel with
  | zero => intro i _; rfl
  | succ n ih =>
    intro i h
    obtain ⟨t, ht, hge⟩ := h i (le_refl _) (by omega)
    unfold find_unbound_txq
    simp only [ht, not_lt.mpr hge, if_false]
    exact ih (i + 1) (fun j h1 h2 => h j (by omega) (by omega))

theorem find_unbound_txq_some (txqs : List efct_test_txq) (m : Nat) (t : efct_test_txq)
    (hm : txqs[m]? = some t) (hneg : t.evq < 0) :
    ∀ (fuel i : Nat), i ≤ m → m < i + fuel →
      (∀ j, i ≤ j → j < m → ∃ t2, txqs[j]? = some t2 ∧ 0 ≤ t2.evq) →
      find_unbound_txq txqs fuel i = some (m : Int) := by
  intro fuel
  induction fuel with
  | zero => intro i h1 h2; omega
  | succ n ih =>
    intro i h1 h2 h
    unfold find_unbound_txq
    by_cases him : i = m
    · subst him
      simp only [hm, hneg, if_true]
    · obtain ⟨t2, ht2, hge⟩ := h i (le_refl _) (by omega)
      simp only [ht2, not_lt.mpr hge, if_false]
      exact ih (i + 1) (by omega) (by omega) (fun j h3 h4 => h j (by omega) h4)

theorem test_evq_read_some (tdev : efct_test_device) (i : Int) (e : efct_test_evq)
    (h : test_evq_read tdev i = some e) : 0 ≤ i ∧ tdev.evqs[i.toNat]? = some e := by
  unfold test_evq_read at h
  by_cases h0 : 0 ≤ i
  · rw [if_pos h0] at h; exact ⟨h0, h⟩
  · rw [if_neg h0] at h; cases h

/-- Counterexample to C19 as stated: EVQ 0 of the initialised sample device is
inited and slot 0 is unbound, yet with the page allocation failing
`efct_test_init_txq` returns `-ENOMEM` and binds nothing. -/
theorem test_init_txq_alloc_failure_counterexample :
    (test_evq_read sample_device_inited 0).map (fun e => e.inited) = some true ∧
    (sample_device_inited.txqs[0]?).map (fun t => t.evq) = some (-1) ∧
    efct_test_init_txq { sample_config false with kmalloc := none } sample_device_inited
      ⟨0, 0, 7⟩ = some (-ENOMEM, sample_device_inited) :=
  ⟨rfl, rfl, rfl⟩

/-- C19 (amended): in the simulated firmware, for a target EVQ that exists,
`efct_test_init_txq` returns `-EINVAL` with the device state unchanged when the
EVQ is not inited, and `-EBUSY` with the device state unchanged when the EVQ is
inited and every TXQ slot is bound. When the EVQ is inited, `i` is the
lowest-index unbound slot and the page allocation succeeds, it returns `i`,
sets `txqs[i].evq` to the EVQ and bit `i` in that EVQ's `txqs` mask, and leaves
every other slot and every other EVQ unchanged. When the allocation fails it
returns `-ENOMEM` and no binding changes. -/
theorem test_init_txq_spec (k : Config) (tdev : efct_test_device)
    (params : efx_auxiliary_txq_params) (e : efct_test_evq)
    (he : test_evq_read tdev params.evq = some e) :
    (e.inited = false → efct_test_init_txq k tdev params = some (-EINVAL, tdev)) ∧
    (e.inited = true →
      (∀ j, j < k.EFCT_TEST_TXQS_N → ∃ t, tdev.txqs[j]? = some t ∧ 0 ≤ t.evq) →
      efct_test_init_txq k tdev params = some (-EBUSY, tdev)) ∧
    (∀ (i : Nat) (t : efct_test_txq), e.inited = true →
      i < k.EFCT_TEST_TXQS_N → tdev.txqs[i]? = some t → t.evq < 0 →
      (∀ j, j < i → ∃ t2, tdev.txqs[j]? = some t2 ∧ 0 ≤ t2.evq) →
      (∀ addr, k.kmalloc = some addr →
        ∃ tdev1 t1 e1, efct_test_init_txq k tdev params = some ((i : Int), tdev1) ∧
          tdev1.txqs[i]? = some t1 ∧ t1.evq = params.evq ∧
          tdev1.evqs[params.evq.toNat]? = some e1 ∧
          e1.txqs = e.txqs ||| (1 <<< i) ∧ e1.txqs.testBit i = true ∧
          e1.inited = true ∧
          (∀ j, j ≠ i → tdev1.txqs[j]? = tdev.txqs[j]?) ∧
          (∀ j, j ≠ params.evq.toNat → tdev1.evqs[j]? = tdev.evqs[j]?)) ∧
      (k.kmalloc = none →
        ∃ tdev1, efct_test_init_txq k tdev params = some (-ENOMEM, tdev1) ∧
          tdev1.evqs = tdev.evqs ∧
          ∀ j : Nat, (tdev1.txqs[j]?).map (fun x : efct_test_txq => x.evq) =
            (tdev.txqs[j]?).map (fun x : efct_test_txq => x.evq))) := by
  obtain ⟨h0, hread⟩ := test_evq_read_some tdev params.evq e he
  refine ⟨?_, ?_, ?_⟩
  · intro hin
    unfold efct_test_init_txq
    simp only [he, hin, Bool.not_false, if_true]
  · intro hin hall
    have hf := find_unbound_txq_none tdev.txqs k.EFCT_TEST_TXQS_N 0
      (fun j _ hj => hall j (by omega))
    unfold efct_test_init_txq
    simp only [he, hin, Bool.not_true, Bool.false_eq_true, if_false, hf]
    rfl
  · intro i t hin hi ht hneg hlow
    have hf := find_unbound_txq_some tdev.txqs i t ht hneg k.EFCT_TEST_TXQS_N 0
      (Nat.zero_le _) (by omega) (fun j _ hj => hlow j hj)
    have hnn : ¬ ((i : Int) < 0) := by omega
    constructor
    · intro addr hk
      refine ⟨{ evqs := tdev.evqs.set params.evq.toNat { e with txqs := e.txqs ||| (1 <<< i) }
                txqs := tdev.txqs.set i
                  { t with
                    ctpio := addr
                    timer_running := 1
                    timer := schedule_delayed_work INIT_DELAYED_WORK 100
                    evq := params.evq
                    ptr := 0
                    pkt_ctr := 0 } },
        _, { e with txqs := e.txqs ||| (1 <<< i) }, ?_, getElem?_set_same _ _ _ _ ht, rfl,
        getElem?_set_same _ _ _ _ hread, rfl, ?_, hin, ?_, ?_⟩
      · unfold efct_test_init_txq
        simp only [he, hin, Bool.not_true, Bool.false_eq_true, if_false, hf, hnn,
          Int.toNat_ofNat, ht, hk]
      · simp [Nat.testBit_or, Nat.one_shiftLeft, Nat.testBit_two_pow_self]
      · intro j hj
        exact getElem?_set_other _ _ _ _ hj
      · intro j hj
        exact getElem?_set_other _ _ _ _ hj
    · intro hk
      refine ⟨{ tdev with txqs := tdev.txqs.set i { t with ctpio := 0 } }, ?_, rfl, ?_⟩
      · unfold efct_test_init_txq
        simp only [he, hin, Bool.not_true, Bool.false_eq_true, if_false, hf, hnn,
          Int.toNat_ofNat, ht, hk]
      · intro j
        by_cases hj : j = i
        · subst hj
          rw [getElem?_set_same _ _ _ _ ht, ht]
          rfl
        · rw [getElem?_set_other _ _ _ _ hj]

/-- Witness for C19 (amended): binding a TXQ to EVQ 0 of the initialised sample
device takes slot 0. -/
theorem test_init_txq_spec_witness :
    ∃ tdev1 t1, efct_test_init_txq (sample_config false) sample_device_inited ⟨0, 0, 7⟩
        = some (0, tdev1) ∧
      tdev1.txqs[0]? = some t1 ∧ t1.evq = 0 := by
  obtain ⟨tdev1, t1, _, h1, h2, h3, _⟩ :=
    ((test_init_txq_spec (sample_config false) sample_device_inited ⟨0, 0, 7⟩
      ⟨true, 0, 0, 4, 0, 3⟩ rfl).2.2 0 ⟨-1, 0, 0, 0, 0, delayed_work.idle⟩ rfl (by decide) rfl
      (by decide) (fun j hj => absurd hj (Nat.not_lt_zero j))).1 8192 rfl
  exact ⟨tdev1, t1, h1, h2, h3⟩

/-- C20: for each of the four queue commands `efct_test_fw_rpc` returns
`-EINVAL` with the device state unchanged when `inlen` differs from the size of
that command's payload, and gives exactly the handler's result when the length
matches and the buffer holds that payload; every other command code returns
`-ENOSYS` with the device state unchanged. -/
theorem test_fw_rpc_dispatch (k : Config) (tdev : efct_test_device)
    (inlen outlen : Nat) (buf : rpc_buf) :
    (inlen ≠ k.sizeof_evq_params →
      efct_test_fw_rpc k tdev ⟨mc_cmd.MC_CMD_INIT_EVQ, inlen, buf, outlen⟩
        = some (-EINVAL, tdev)) ∧
    (inlen ≠ sizeof_int →
      efct_test_fw_rpc k tdev ⟨mc_cmd.MC_CMD_FINI_EVQ, inlen, buf, outlen⟩
        = some (-EINVAL, tdev)) ∧
    (inlen ≠ k.sizeof_txq_params →
      efct_test_fw_rpc k tdev ⟨mc_cmd.MC_CMD_INIT_TXQ, inlen, buf, outlen⟩
        = some (-EINVAL, tdev)) ∧
    (inlen ≠ sizeof_int →
      efct_test_fw_rpc k tdev ⟨mc_cmd.MC_CMD_FINI_TXQ, inlen, buf, outlen⟩
        = some (-EINVAL, tdev)) ∧
    (∀ p, efct_test_fw_rpc k tdev
        ⟨mc_cmd.MC_CMD_INIT_EVQ, k.sizeof_evq_params, rpc_buf.evq_params p, outlen⟩
      = efct_test_init_evq k tdev p) ∧
    (∀ v, efct_test_fw_rpc k tdev
        ⟨mc_cmd.MC_CMD_FINI_EVQ, sizeof_int, rpc_buf.int_val v, outlen⟩
      = (efct_test_free_evq tdev v).map fun d => (0, d)) ∧
    (∀ p, efct_test_fw_rpc k tdev
        ⟨mc_cmd.MC_CMD_INIT_TXQ, k.sizeof_txq_params, rpc_buf.txq_params p, outlen⟩
      = efct_test_init_txq k tdev p) ∧
    (∀ v, efct_test_fw_rpc k tdev
        ⟨mc_cmd.MC_CMD_FINI_TXQ, sizeof_int, rpc_buf.int_val v, outlen⟩
      = (efct_test_free_txq k tdev v).map fun d => (0, d)) ∧
    (∀ code, efct_test_fw_rpc k tdev ⟨mc_cmd.other code, inlen, buf, outlen⟩
      = some (-ENOSYS, tdev)) := by
  refine ⟨?_, ?_, ?_, ?_, ?_, ?_, ?_, ?_, ?_⟩
  · intro h; simp [efct_test_fw_rpc, h]
  · intro h; simp [efct_test_fw_rpc, h]
  · intro h; simp [efct_test_fw_rpc, h]
  · intro h; simp [efct_test_fw_rpc, h]
  · intro p; simp [efct_test_fw_rpc]
  · intro v; simp [efct_test_fw_rpc]
  · intro p; simp [efct_test_fw_rpc]
  · intro v; simp [efct_test_fw_rpc]
  · intro code; simp [efct_test_fw_rpc]

/-! ## Queue-table invariant of the simulated firmware -/

theorem testBit_set_bit (x k j : Nat) :
    (x ||| (1 <<< k)).testBit j = (x.testBit j || decide (k = j)) := by
  rw [Nat.testBit_or, Nat.one_shiftLeft, Nat.testBit_two_pow]

theorem testBit_clear_bit (x k j : Nat) :
    (x ^^^ (x &&& (1 <<< k))).testBit j = (x.testBit j && !decide (k = j)) := by
  rw [Nat.testBit_xor, Nat.testBit_and, Nat.one_shiftLeft, Nat.testBit_two_pow]
  cases x.testBit j <;> cases decide (k = j) <;> rfl

theorem clear_bit_zero (k : Nat) : (0 : Nat) ^^^ ((0 : Nat) &&& (1 <<< k)) = 0 := by
  simp

theorem lookup_set_cases {α : Type} (l : List α) (i j : Nat) (a x : α)
    (hx : (l.set i a)[j]? = some x) :
    (j = i ∧ x = a) ∨ (j ≠ i ∧ l[j]? = some x) := by
  rw [List.getElem?_set] at hx
  by_cases hij : i = j
  · rw [if_pos hij] at hx
    by_cases hlt : i < l.length
    · rw [if_pos hlt] at hx
      cases hx
      exact Or.inl ⟨hij.symm, rfl⟩
    · rw [if_neg hlt] at hx
      cases hx
  · rw [if_neg hij] at hx
    exact Or.inr ⟨fun h => hij h.symm, hx⟩

theorem find_unbound_txq_result (txqs : List efct_test_txq) :
    ∀ (fuel i : Nat) (idx : Int), find_unbound_txq txqs fuel i = some idx →
      idx = -1 ∨ ∃ (m : Nat) (t : efct_test_txq),
        idx = (m : Int) ∧ txqs[m]? = some t ∧ t.evq < 0 := by
  intro fuel
  induction fuel with
  | zero =>
    intro i idx h
    simp only [find_unbound_txq, Option.some.injEq] at h
    exact Or.inl h.symm
  | succ n ih =>
    intro i idx h
    unfold find_unbound_txq at h
    cases ht : txqs[i]? with
    | none => simp [ht] at h
    | some t =>
      simp only [ht] at h
      by_cases hneg : t.evq < 0
      · rw [if_pos hneg] at h
        cases h
        exact Or.inr ⟨i, t, rfl, ht, hneg⟩
      · rw [if_neg hneg] at h
        exact ih (i + 1) idx h

theorem initial_device_ok (n m : Nat) : queue_table_ok (initial_test_device n m) := by
  refine ⟨?_, ?_, ?_⟩
  · intro i e t q ht hq
    simp only [initial_test_device, List.getElem?_replicate] at ht hq
    split at ht
    · split at hq
      · cases ht; cases hq
        simp
      · cases hq
    · cases ht
  · intro i t ht h0
    simp only [initial_test_device, List.getElem?_replicate] at ht
    split at ht
    · cases ht
      exact absurd h0 (by decide)
    · cases ht
  · intro e q hq _
    simp only [initial_test_device, List.getElem?_replicate] at hq
    split at hq
    · cases hq; rfl
    · cases hq

theorem ok_update_evq (tdev : efct_test_device) (e0 : Nat) (q0 q1 : efct_test_evq)
    (hok : queue_table_ok tdev) (hq0 : tdev.evqs[e0]? = some q0)
    (hmask : q1.txqs = q0.txqs) (hin : q1.inited = true ∨ q0.txqs = 0) :
    queue_table_ok { tdev with evqs := tdev.evqs.set e0 q1 } := by
  obtain ⟨hA, hB, hC⟩ := hok
  refine ⟨?_, ?_, ?_⟩
  · intro i e t q ht hq
    rcases lookup_set_cases _ _ _ _ _ hq with ⟨he, hqe⟩ | ⟨_, hold⟩
    · subst he; subst hqe
      rw [hmask]
      exact hA i e t q0 ht hq0
    · exact hA i e t q ht hold
  · intro i t ht h0
    obtain ⟨q, hq, hqi⟩ := hB i t ht h0
    by_cases hn : t.evq.toNat = e0
    · rcases hin with h1 | hz
      · exact ⟨q1, by rw [hn]; exact getElem?_set_same _ _ _ _ hq0, h1⟩
      · exfalso
        have hbit := (hA i e0 t q0 ht hq0).mp (by rw [← hn]; exact (Int.toNat_of_nonneg h0).symm)
        rw [hz, Nat.zero_testBit] at hbit
        cases hbit
    · exact ⟨q, by rw [← hq]; exact getElem?_set_other _ _ _ _ hn, hqi⟩
  · intro e q hq hqi
    rcases lookup_set_cases _ _ _ _ _ hq with ⟨_, hqe⟩ | ⟨_, hold⟩
    · subst hqe
      rcases hin with h1 | hz
      · rw [h1] at hqi; cases hqi
      · rw [hmask]; exact hz
    · exact hC e q hold hqi

theorem ok_update_txq (tdev : efct_test_device) (i0 : Nat) (t0 t1 : efct_test_txq)
    (hok : queue_table_ok tdev) (ht0 : tdev.txqs[i0]? = some t0) (hevq : t1.evq = t0.evq) :
    queue_table_ok { tdev with txqs := tdev.txqs.set i0 t1 } := by
  obtain ⟨hA, hB, hC⟩ := hok
  refine ⟨?_, ?_, hC⟩
  · intro i e t q ht hq
    rcases lookup_set_cases _ _ _ _ _ ht with ⟨hi, hte⟩ | ⟨_, hold⟩
    · subst hi; subst hte
      rw [hevq]
      exact hA i e t0 q ht0 hq
    · exact hA i e t q hold hq
  · intro i t ht h0
    rcases lookup_set_cases _ _ _ _ _ ht with ⟨hi, hte⟩ | ⟨_, hold⟩
    · subst hi; subst hte
      rw [hevq] at h0 ⊢
      exact hB i t0 ht0 h0
    · exact hB i t hold h0

theorem ok_bind (tdev : efct_test_device) (i0 e0 : Nat) (t0 t1 : efct_test_txq)
    (q0 q1 : efct_test_evq) (hok : queue_table_ok tdev)
    (ht0 : tdev.txqs[i0]? = some t0) (hfree : t0.evq < 0)
    (hq0 : tdev.evqs[e0]? = some q0)
    (ht1 : t1.evq = (e0 : Int)) (hq1 : q1.inited = true)
    (hbits : ∀ j, q1.txqs.testBit j = (q0.txqs.testBit j || decide (i0 = j))) :
    queue_table_ok { evqs := tdev.evqs.set e0 q1, txqs := tdev.txqs.set i0 t1 } := by
  obtain ⟨hA, hB, hC⟩ := hok
  refine ⟨?_, ?_, ?_⟩
  · intro i e t q ht hq
    rcases lookup_set_cases _ _ _ _ _ ht with ⟨hi, hte⟩ | ⟨hi, holdt⟩
    · subst hi; subst hte
      rcases lookup_set_cases _ _ _ _ _ hq with ⟨he, hqe⟩ | ⟨he, holdq⟩
      · subst he; subst hqe
        rw [hbits]
        simp [ht1]
      · have hnot : ¬ (t.evq = (e : Int)) := by rw [ht1]; omega
        have hold := hA i e t0 q ht0 holdq
        have hne : ¬ (t0.evq = (e : Int)) := by omega
        constructor
        · intro h; exact absurd h hnot
        · intro h; exact absurd (hold.mpr h) hne
    · rcases lookup_set_cases _ _ _ _ _ hq with ⟨he, hqe⟩ | ⟨_, holdq⟩
      · subst he; subst hqe
        rw [hbits]
        have hne : i0 ≠ i := fun h => hi h.symm
        simp only [hne, decide_False, Bool.or_false]
        exact hA i e t q0 holdt hq0
      · exact hA i e t q holdt holdq
  · intro i t ht h0
    rcases lookup_set_cases _ _ _ _ _ ht with ⟨hi, hte⟩ | ⟨_, holdt⟩
    · subst hte
      refine ⟨q1, ?_, hq1⟩
      rw [ht1, Int.toNat_ofNat]
      exact getElem?_set_same _ _ _ _ hq0
    · obtain ⟨q, hq, hqi⟩ := hB i t holdt h0
      by_cases hn : t.evq.toNat = e0
      · exact ⟨q1, by rw [hn]; exact getElem?_set_same _ _ _ _ hq0, hq1⟩
      · exact ⟨q, by rw [← hq]; exact getElem?_set_other _ _ _ _ hn, hqi⟩
  · intro e q hq hqi
    rcases lookup_set_cases _ _ _ _ _ hq with ⟨_, hqe⟩ | ⟨_, hold⟩
    · subst hqe
      rw [hq1] at hqi; cases hqi
    · exact hC e q hold hqi

theorem ok_unbind (tdev : efct_test_device) (i0 e0 : Nat) (t0 t1 : efct_test_txq)
    (q0 q1 : efct_test_evq) (hok : queue_table_ok tdev)
    (ht0 : tdev.txqs[i0]? = some t0) (hbound : t0.evq = (e0 : Int))
    (hq0 : tdev.evqs[e0]? = some q0)
    (ht1 : t1.evq = -1) (hq1 : q1.inited = q0.inited)
    (hzero : q0.txqs = 0 → q1.txqs = 0)
    (hbits : ∀ j, q1.txqs.testBit j = (q0.txqs.testBit j && !decide (i0 = j))) :
    queue_table_ok { evqs := tdev.evqs.set e0 q1, txqs := tdev.txqs.set i0 t1 } := by
  obtain ⟨hA, hB, hC⟩ := hok
  refine ⟨?_, ?_, ?_⟩
  · intro i e t q ht hq
    rcases lookup_set_cases _ _ _ _ _ ht with ⟨hi, hte⟩ | ⟨hi, holdt⟩
    · subst hi; subst hte
      have hnot : ¬ (t.evq = (e : Int)) := by rw [ht1]; omega
      rcases lookup_set_cases _ _ _ _ _ hq with ⟨he, hqe⟩ | ⟨he, holdq⟩
      · subst hqe
        rw [hbits]
        simp [hnot]
      · have hold := hA i e t0 q ht0 holdq
        have hne : ¬ (t0.evq = (e : Int)) := by rw [hbound]; omega
        constructor
        · intro h; exact absurd h hnot
        · intro h; exact absurd (hold.mpr h) hne
    · rcases lookup_set_cases _ _ _ _ _ hq with ⟨he, hqe⟩ | ⟨_, holdq⟩
      · subst he; subst hqe
        rw [hbits]
        have hne : i0 ≠ i := fun h => hi h.symm
        simp only [hne, decide_False, Bool.not_false, Bool.and_true]
        exact hA i e t q0 holdt hq0
      · exact hA i e t q holdt holdq
  · intro i t ht h0
    rcases lookup_set_cases _ _ _ _ _ ht with ⟨_, hte⟩ | ⟨_, holdt⟩
    · subst hte
      rw [ht1] at h0
      exact absurd h0 (by decide)
    · obtain ⟨q, hq, hqi⟩ := hB i t holdt h0
      by_cases hn : t.evq.toNat = e0
      · refine ⟨q1, by rw [hn]; exact getElem?_set_same _ _ _ _ hq0, ?_⟩
        rw [hn, hq0] at hq
        cases hq
        rw [hq1]; exact hqi
      · exact ⟨q, by rw [← hq]; exact getElem?_set_other _ _ _ _ hn, hqi⟩
  · intro e q hq hqi
    rcases lookup_set_cases _ _ _ _ _ hq with ⟨_, hqe⟩ | ⟨_, hold⟩
    · subst hqe
      rw [hq1] at hqi
      exact hzero (hC e0 q0 hq0 hqi)
    · exact hC e q hold hqi

theorem init_evq_keeps_ok (k : Config) (tdev tdev1 : efct_test_device)
    (p : efx_auxiliary_evq_params) (rc : Int) (hok : queue_table_ok tdev)
    (h : efct_test_init_evq k tdev p = some (rc, tdev1)) : queue_table_ok tdev1 := by
  unfold efct_test_init_evq at h
  cases hr : test_evq_read tdev p.qid with
  | none => simp [hr] at h
  | some q =>
    obtain ⟨_, hread⟩ := test_evq_read_some tdev p.qid q hr
    simp only [hr] at h
    by_cases hin : q.inited = true
    · simp only [hin, if_true, Option.some.injEq, Prod.mk.injEq] at h
      rw [← h.2]; exact hok
    · by_cases htx : q.txqs = 0
      · simp only [hin, htx, ne_eq, not_true_eq_false, if_false, Bool.false_eq_true,
          Option.some.injEq, Prod.mk.injEq] at h
        rw [← h.2]
        exact ok_update_evq tdev p.qid.toNat q _ hok hread htx.symm (Or.inl rfl)
      · simp [hin, htx] at h

theorem free_evq_keeps_ok (tdev tdev1 : efct_test_device) (evq : Int) (q : efct_test_evq)
    (hok : queue_table_ok tdev) (hr : test_evq_read tdev evq = some q) (hz : q.txqs = 0)
    (h : efct_test_free_evq tdev evq = some tdev1) : queue_table_ok tdev1 := by
  obtain ⟨_, hread⟩ := test_evq_read_some tdev evq q hr
  unfold efct_test_free_evq at h
  simp only [hr, Option.some.injEq] at h
  rw [← h]
  exact ok_update_evq tdev evq.toNat q _ hok hread rfl (Or.inr hz)

theorem init_txq_keeps_ok (k : Config) (tdev tdev1 : efct_test_device)
    (p : efx_auxiliary_txq_params) (rc : Int) (hok : queue_table_ok tdev)
    (h : efct_test_init_txq k tdev p = some (rc, tdev1)) : queue_table_ok tdev1 := by
  unfold efct_test_init_txq at h
  cases hr : test_evq_read tdev p.evq with
  | none => simp [hr] at h
  | some q =>
    obtain ⟨h0, hread⟩ := test_evq_read_some tdev p.evq q hr
    simp only [hr] at h
    by_cases hin : q.inited = true
    · simp only [hin, Bool.not_true, Bool.false_eq_true, if_false] at h
      cases hf : find_unbound_txq tdev.txqs k.EFCT_TEST_TXQS_N 0 with
      | none => simp [hf] at h
      | some idx =>
        simp only [hf] at h
        by_cases hneg : idx < 0
        · simp only [hneg, if_true, Option.some.injEq, Prod.mk.injEq] at h
          rw [← h.2]; exact hok
        · rcases find_unbound_txq_result tdev.txqs _ _ idx hf with hm1 | ⟨m, t, hidx, ht, hfree⟩
          · rw [hm1] at hneg; exact absurd (by decide) hneg
          · subst hidx
            simp only [hneg, if_false, Int.toNat_ofNat, ht] at h
            cases hk : k.kmalloc with
            | none =>
              simp only [hk, Option.some.injEq, Prod.mk.injEq] at h
              rw [← h.2]
              exact ok_update_txq tdev m t _ hok ht rfl
            | some addr =>
              simp only [hk, Option.some.injEq, Prod.mk.injEq] at h
              rw [← h.2]
              exact ok_bind tdev m p.evq.toNat t _ q _ hok ht hfree hread
                (Int.toNat_of_nonneg h0).symm rfl (fun j => testBit_set_bit q.txqs m j)
    · simp only [hin, Bool.not_false, if_true, Option.some.injEq, Prod.mk.injEq] at h
      rw [← h.2]; exact hok

theorem free_txq_keeps_ok (k : Config) (hpush : push_keeps_binding k)
    (tdev tdev1 : efct_test_device) (txq_idx : Int) (hok : queue_table_ok tdev)
    (h : efct_test_free_txq k tdev txq_idx = some tdev1) : queue_table_ok tdev1 := by
  unfold efct_test_free_txq at h
  cases ht : test_txq_read tdev txq_idx with
  | none => simp [ht] at h
  | some t =>
    simp only [ht] at h
    have hti : 0 ≤ txq_idx ∧ tdev.txqs[txq_idx.toNat]? = some t := by
      unfold test_txq_read at ht
      by_cases h0 : 0 ≤ txq_idx
      · rw [if_pos h0] at ht; exact ⟨h0, ht⟩
      · rw [if_neg h0] at ht; cases ht
    cases hr : test_evq_read tdev t.evq with
    | none => simp [hr] at h
    | some q =>
      obtain ⟨h0, hread⟩ := test_evq_read_some tdev t.evq q hr
      simp only [hr, Option.some.injEq] at h
      obtain ⟨hp1, hp2⟩ := hpush q txq_idx
      rw [← h]
      refine ok_unbind tdev txq_idx.toNat t.evq.toNat t _ q _ hok hti.2
        (Int.toNat_of_nonneg h0).symm hread rfl hp1 ?_ ?_
      · intro hz
        show (k.evq_push_tx_flush_complete q txq_idx).txqs ^^^
          ((k.evq_push_tx_flush_complete q txq_idx).txqs &&& (1 <<< txq_idx.toNat)) = 0
        rw [hp2, hz]
        exact clear_bit_zero _
      · intro j
        show ((k.evq_push_tx_flush_complete q txq_idx).txqs ^^^
          ((k.evq_push_tx_flush_complete q txq_idx).txqs &&& (1 <<< txq_idx.toNat))).testBit j = _
        rw [hp2]
        exact testBit_clear_bit q.txqs txq_idx.toNat j

theorem sample_device_bound_ok : queue_table_ok sample_device_bound :=
  init_txq_keeps_ok (sample_config false)
    { evqs := [⟨true, 0, 0, 4, 0, 3⟩, ⟨false, 0, 0, 0, 0, 0⟩]
      txqs := [⟨-1, 0, 0, 0, 0, delayed_work.idle⟩, ⟨-1, 0, 0, 0, 0, delayed_work.idle⟩] }
    sample_device_bound ⟨0, 0, 7⟩ 0
    (init_evq_keeps_ok (sample_config false) (initial_test_device 2 2) _
      ⟨0, 4, 0, 0, 32, 0, 0⟩ 0 (initial_device_ok 2 2) (by decide))
    (by decide)

/-- Counterexample to C21 as stated: the sample device with TXQ slot 0 bound
to the inited EVQ 0 (reached from the initial state by init-EVQ and init-TXQ)
satisfies the invariant; `efct_test_free_evq` on EVQ 0 returns a state in
which that EVQ is not inited but still has mask 1, so the invariant fails. -/
theorem test_free_evq_breaks_invariant_counterexample :
    queue_table_ok sample_device_bound ∧
    ∃ d1, efct_test_free_evq sample_device_bound 0 = some d1 ∧ ¬ queue_table_ok d1 := by
  refine ⟨sample_device_bound_ok,
    { sample_device_bound with evqs := [⟨false, 1, 0, 4, 0, 3⟩, ⟨false, 0, 0, 0, 0, 0⟩] },
    by decide, ?_⟩
  rintro ⟨_, _, hC⟩
  have h := hC 0 ⟨false, 1, 0, 4, 0, 3⟩ rfl rfl
  exact absurd h (by decide)

/-- C21 (amended): the queue-table invariant holds in the initial all-unbound
state and is preserved by `efct_test_init_evq`, `efct_test_init_txq` and
`efct_test_free_txq` for every argument with which they return (the event
writer leaving `inited` and the mask alone), and by `efct_test_free_evq` for
every EVQ whose mask is empty. -/
theorem queue_table_invariant (k : Config) (hpush : push_keeps_binding k) :
    (∀ n m : Nat, queue_table_ok (initial_test_device n m)) ∧
    (∀ (tdev tdev1 : efct_test_device) (p : efx_auxiliary_evq_params) (rc : Int),
      queue_table_ok tdev → efct_test_init_evq k tdev p = some (rc, tdev1) →
      queue_table_ok tdev1) ∧
    (∀ (tdev tdev1 : efct_test_device) (p : efx_auxiliary_txq_params) (rc : Int),
      queue_table_ok tdev → efct_test_init_txq k tdev p = some (rc, tdev1) →
      queue_table_ok tdev1) ∧
    (∀ (tdev tdev1 : efct_test_device) (txq_idx : Int),
      queue_table_ok tdev → efct_test_free_txq k tdev txq_idx = some tdev1 →
      queue_table_ok tdev1) ∧
    (∀ (tdev tdev1 : efct_test_device) (evq : Int) (q : efct_test_evq),
      queue_table_ok tdev → test_evq_read tdev evq = some q → q.txqs = 0 →
      efct_test_free_evq tdev evq = some tdev1 → queue_table_ok tdev1) :=
  ⟨initial_device_ok,
    fun tdev tdev1 p rc hok h => init_evq_keeps_ok k tdev tdev1 p rc hok h,
    fun tdev tdev1 p rc hok h => init_txq_keeps_ok k tdev tdev1 p rc hok h,
    fun tdev tdev1 idx hok h => free_txq_keeps_ok k hpush tdev tdev1 idx hok h,
    fun tdev tdev1 evq q hok hr hz h => free_evq_keeps_ok tdev tdev1 evq q hok hr hz h⟩

/-- Witness for C21 (amended): freeing the bound TXQ slot 0 of the sample
device returns a state that satisfies the invariant. -/
theorem queue_table_invariant_witness :
    ∃ d1, efct_test_free_txq (sample_config false) sample_device_bound 0 = some d1 ∧
      queue_table_ok d1 :=
  ⟨{ evqs := [⟨true, 0, 0, 4, 1, 3⟩, ⟨false, 0, 0, 0, 0, 0⟩]
     txqs := [⟨-1, 8192, 0, 0, 0, delayed_work.idle⟩, ⟨-1, 0, 0, 0, 0, delayed_work.idle⟩] },
    by decide,
    (queue_table_invariant (sample_config false) (fun _ _ => ⟨rfl, rfl⟩)).2.2.2.1
      sample_device_bound _ 0 sample_device_bound_ok (by decide)⟩

/-! ## The flush state machine -/

theorem flush_machine_flush_step {σ : Type} (f : EventFormat) (ops : FwOps σ) (evq dmaq : Nat)
    (w w1 : World σ) (e : efhw_nic_ef10ct_evq)
    (he : w.nic.arch_extra.evq[evq]? = some e)
    (h : flush_machine_step f ops evq w (flush_event.flush dmaq) = some w1) :
    w1.nic.arch_extra.evq[evq]? = some (flush_requested_evq e) := by
  simp only [flush_machine_step] at h
  cases hops : ops w.dev (fini_txq_cmd dmaq) with
  | none =>
    have hh : ef10ct_flush_tx_dma_channel ops w dmaq evq =
        Outcome.halt Fault.device { w with rpcs := w.rpcs ++ [fini_txq_cmd dmaq] } := by
      unfold ef10ct_flush_tx_dma_channel ef10ct_fw_rpc
      rw [hops]
    rw [hh] at h
    cases h
  | some r =>
    obtain ⟨rc, d⟩ := r
    rw [flush_step ops w dmaq evq e rc d he hops] at h
    simp only [Option.some.injEq] at h
    rw [← h]
    exact getElem?_set_same _ _ _ _ he

theorem flush_machine_scan_step {σ : Type} (f : EventFormat) (ops : FwOps σ) (evq : Nat)
    (ring : Nat → Nat) (w w1 : World σ) (e : efhw_nic_ef10ct_evq)
    (he : w.nic.arch_extra.evq[evq]? = some e)
    (h : flush_machine_step f ops evq w (flush_event.scan ring) = some w1) :
    (∃ d, e.check_flushes = delayed_work.pending d) ∧
    w1.nic.arch_extra.evq[evq]? = some (check_flushes_run f e ring).evq := by
  simp only [flush_machine_step, he] at h
  cases hc : e.check_flushes with
  | idle => simp [hc] at h
  | pending d =>
    simp only [hc, Option.some.injEq] at h
    refine ⟨⟨d, rfl⟩, ?_⟩
    rw [← h]
    exact getElem?_set_same _ _ _ _ he

theorem check_flushes_run_invariant (f : EventFormat) (e : efhw_nic_ef10ct_evq)
    (ring : Nat → Nat) (h1 : 1 ≤ e.queues_flushing) (hmax : e.queues_flushing ≤ INT_MAX) :
    0 ≤ (check_flushes_run f e ring).evq.queues_flushing ∧
    (check_flushes_run f e ring).evq.queues_flushing ≤ e.queues_flushing ∧
    ∀ d, (check_flushes_run f e ring).evq.check_flushes = delayed_work.pending d →
      1 ≤ (check_flushes_run f e ring).evq.queues_flushing := by
  have h0 : (0 : Int) ≤ ({ e with check_flushes := delayed_work.idle } :
      efhw_nic_ef10ct_evq).queues_flushing := by
    show 0 ≤ e.queues_flushing
    omega
  have hw : wrap_int (e.queues_flushing - 1) = e.queues_flushing - 1 :=
    wrap_int_pred _ (by omega) hmax
  unfold check_flushes_run
  cases hs : scan_ring f ring e.capacity 0 with
  | none =>
    rw [check_for_flushes_not_found f _ ring h0 hs]
    refine ⟨by show 0 ≤ e.queues_flushing; omega, le_refl _, fun _ _ => h1⟩
  | some i =>
    rw [check_for_flushes_found f _ ring i h0 hs]
    show _ ∧ _ ∧ _
    by_cases hz : wrap_int (e.queues_flushing - 1) = 0
    · rw [if_pos hz]
      refine ⟨?_, ?_, ?_⟩
      · show 0 ≤ wrap_int (e.queues_flushing - 1)
        rw [hz]
      · show wrap_int (e.queues_flushing - 1) ≤ e.queues_flushing
        rw [hw]; omega
      · intro d hd
        cases hd
    · rw [if_neg hz]
      refine ⟨?_, ?_, ?_⟩
      · show 0 ≤ wrap_int (e.queues_flushing - 1)
        rw [hw]; omega
      · show wrap_int (e.queues_flushing - 1) ≤ e.queues_flushing
        rw [hw]; omega
      · intro d _
        show 1 ≤ wrap_int (e.queues_flushing - 1)
        rw [hw] at hz ⊢
        omega

theorem flush_machine_invariant {σ : Type} (f : EventFormat) (ops : FwOps σ) (evq : Nat)
    (events : List flush_event) :
    ∀ (w w1 : World σ) (e : efhw_nic_ef10ct_evq) (n : Nat),
      w.nic.arch_extra.evq[evq]? = some e →
      0 ≤ e.queues_flushing → e.queues_flushing ≤ (n : Int) →
      (∀ d, e.check_flushes = delayed_work.pending d → 1 ≤ e.queues_flushing) →
      (n : Int) + (count_flushes events : Int) ≤ INT_MAX →
      flush_machine_run f ops evq w events = some w1 →
      ∃ e1, w1.nic.arch_extra.evq[evq]? = some e1 ∧ 0 ≤ e1.queues_flushing ∧
        e1.queues_flushing ≤ (n : Int) + (count_flushes events : Int) ∧
        ∀ d, e1.check_flushes = delayed_work.pending d → 1 ≤ e1.queues_flushing := by
  induction events with
  | nil =>
    intro w w1 e n he h0 hn hp _ hrun
    simp only [flush_machine_run, Option.some.injEq] at hrun
    subst hrun
    exact ⟨e, he, h0, by simp [count_flushes]; exact hn, hp⟩
  | cons ev rest ih =>
    intro w w1 e n he h0 hn hp hcount hrun
    unfold flush_machine_run at hrun
    cases hstep : flush_machine_step f ops evq w ev with
    | none => simp [hstep] at hrun
    | some w2 =>
      simp only [hstep] at hrun
      cases ev with
      | flush dmaq =>
        have he2 := flush_machine_flush_step f ops evq dmaq w w2 e he hstep
        have hc : (count_flushes (flush_event.flush dmaq :: rest) : Int) =
            (count_flushes rest : Int) + 1 := by
          simp [count_flushes]
        rw [hc] at hcount ⊢
        have hq : (flush_requested_evq e).queues_flushing = e.queues_flushing + 1 :=
          wrap_int_of_range _ (by simp only [INT_MIN]; omega) (by omega)
        obtain ⟨e1, h1, h2, h3, h4⟩ := ih w2 w1 (flush_requested_evq e) (n + 1) he2
          (by rw [hq]; omega) (by rw [hq]; push_cast; omega)
          (fun _ _ => by rw [hq]; omega) (by push_cast; omega) hrun
        exact ⟨e1, h1, h2, by push_cast at h3; omega, h4⟩
      | scan ring =>
        obtain ⟨⟨d, hd⟩, he2⟩ := flush_machine_scan_step f ops evq ring w w2 e he hstep
        have hc : (count_flushes (flush_event.scan ring :: rest) : Int) =
            (count_flushes rest : Int) := by
          simp [count_flushes]
        rw [hc] at hcount ⊢
        obtain ⟨r0, r1, r2⟩ := check_flushes_run_invariant f e ring (hp d hd) (by omega)
        exact ih w2 w1 _ n he2 r0 (by omega) r2 hcount hrun

theorem flush_machine_run_flushes {σ : Type} (f : EventFormat) (ops : FwOps σ)
    (hops : ∀ d c, ∃ r, ops d c = some r) (evq dmaq : Nat) :
    ∀ (n : Nat) (w : World σ) (e : efhw_nic_ef10ct_evq),
      w.nic.arch_extra.evq[evq]? = some e →
      ∃ w1, flush_machine_run f ops evq w (List.replicate n (flush_event.flush dmaq)) = some w1 ∧
        w1.nic.arch_extra.evq[evq]? = some (flush_requested_evq^[n] e) := by
  intro n
  induction n with
  | zero => intro w e he; exact ⟨w, rfl, he⟩
  | succ m ih =>
    intro w e he
    obtain ⟨⟨rc, d⟩, hr⟩ := hops w.dev (fini_txq_cmd dmaq)
    have hstep : flush_machine_step f ops evq w (flush_event.flush dmaq) =
        some (World.with_table { w with rpcs := w.rpcs ++ [fini_txq_cmd dmaq], dev := d }
          { w.nic.arch_extra with
            evq := w.nic.arch_extra.evq.set evq (flush_requested_evq e) }) := by
      simp only [flush_machine_step]
      rw [flush_step ops w dmaq evq e rc d he hr]
    obtain ⟨w1, h1, h2⟩ := ih _ (flush_requested_evq e)
      (flush_machine_flush_step f ops evq dmaq w _ e he hstep)
    refine ⟨w1, ?_, ?_⟩
    · rw [List.replicate_succ]
      unfold flush_machine_run
      rw [hstep]
      exact h1
    · rw [h2, Function.iterate_succ_apply]

/-- Counterexample to C22 as stated: from the freshly enabled EVQ 0 of the
sample adapter, the sequence of 2^31 flush steps is taken in full and ends with
`queues_flushing = -2^31`, a negative counter without any disable. -/
theorem flush_machine_wraps_counterexample :
    ∃ w1 e1, flush_machine_run sample_format (fw_const 0) 0 sample_world_unit
        (List.replicate (2 ^ 31) (flush_event.flush 0)) = some w1 ∧
      w1.nic.arch_extra.evq[0]? = some e1 ∧ e1.queues_flushing < 0 := by
  obtain ⟨w1, h1, h2⟩ := flush_machine_run_flushes sample_format (fw_const 0)
    (fun d _ => ⟨(0, d), rfl⟩) 0 0 (2 ^ 31) sample_world_unit
    ⟨0, 0, delayed_work.idle, 0, 0, 0⟩ rfl
  have hq := (flush_requested_iterate ⟨0, 0, delayed_work.idle, 0, 0, 0⟩ (2 ^ 31)
    (by decide)).1
  refine ⟨w1, _, h1, h2, ?_⟩
  rw [hq]
  simp only [wrap_int]
  norm_num

/-- C22 (amended): from a freshly enabled EVQ (`queues_flushing = 0`, scanner
idle), after any finite sequence of steps that are flush calls or scanner runs
taken while the scanner is scheduled (any ring contents), with at most
`INT_MAX` flush calls, `queues_flushing` is not negative and is at least 1
whenever the scanner is scheduled. From such a state a disable call whose RPC
returns leaves the counter at -1. -/
theorem flush_machine_counter_nonneg {σ : Type} (f : EventFormat) (ops : FwOps σ) (evq : Nat)
    (w w1 : World σ) (e : efhw_nic_ef10ct_evq) (events : List flush_event)
    (he : w.nic.arch_extra.evq[evq]? = some e)
    (hq : e.queues_flushing = 0) (hidle : e.check_flushes = delayed_work.idle)
    (hcount : (count_flushes events : Int) ≤ INT_MAX)
    (hrun : flush_machine_run f ops evq w events = some w1) :
    (∃ e1, w1.nic.arch_extra.evq[evq]? = some e1 ∧ 0 ≤ e1.queues_flushing ∧
      ∀ d, e1.check_flushes = delayed_work.pending d → 1 ≤ e1.queues_flushing) ∧
    (∀ (ts rc : Int) (d : σ), evq < w1.nic.arch_extra.evq_n →
      ops w1.dev (fini_evq_cmd evq) = some (rc, d) →
      ∃ w2 e2, ef10ct_nic_event_queue_disable ops w1 evq ts = Outcome.ret () w2 ∧
        w2.nic.arch_extra.evq[evq]? = some e2 ∧ e2.queues_flushing = -1) := by
  obtain ⟨e1, h1, h2, _, h4⟩ := flush_machine_invariant f ops evq events w w1 e 0 he
    (by rw [hq]) (by rw [hq]; rfl)
    (fun d hd => by rw [hidle] at hd; cases hd) (by simpa using hcount) hrun
  refine ⟨⟨e1, h1, h2, h4⟩, ?_⟩
  intro ts rc d hevq hrpc
  exact ⟨_, disabled_evq e1, disable_step ops w1 evq ts e1 rc d hevq h1 hrpc,
    getElem?_set_same _ _ _ _ h1, rfl⟩

/-- Witness for C22 (amended): two flush calls, an unmatched scan, a matched
scan and a third flush on the enabled EVQ 0 of the sample adapter. -/
theorem flush_machine_counter_nonneg_witness :
    ∃ w1 e1, flush_machine_run sample_format (fw_const 0) 0 sample_world_enabled
        [flush_event.flush 7, flush_event.flush 3, flush_event.scan (fun _ => 0),
         flush_event.scan (sample_ring 2 7), flush_event.flush 5] = some w1 ∧
      w1.nic.arch_extra.evq[0]? = some e1 ∧ 0 ≤ e1.queues_flushing ∧
      ∀ d, e1.check_flushes = delayed_work.pending d → 1 ≤ e1.queues_flushing := by
  have hrun : flush_machine_run sample_format (fw_const 0) 0 sample_world_enabled
      [flush_event.flush 7, flush_event.flush 3, flush_event.scan (fun _ => 0),
       flush_event.scan (sample_ring 2 7), flush_event.flush 5] =
      some { nic := { self := 64, arch_extra := { evq_n := 2, evq :=
               [⟨64, 2, delayed_work.pending 100, 1048576, 4, 0⟩,
                ⟨0, 0, delayed_work.idle, 0, 0, -1⟩] } }
             dev := ()
             rpcs := [fini_txq_cmd 7, fini_txq_cmd 3, fini_txq_cmd 5] } := by
    decide
  obtain ⟨e1, h1, h2, h3⟩ := (flush_machine_counter_nonneg sample_format (fw_const 0) 0
    sample_world_enabled _ ⟨64, 0, delayed_work.idle, 1048576, 4, 0⟩ _ rfl rfl rfl
    (by decide) hrun).1
  exact ⟨_, e1, hrun, h1, h2, h3⟩

/-- Counterexample to C23 as stated: on the enabled EVQ 0 of the sample adapter
a flush and an unmatched scan leave the scanner pending with delay 100; a
further flush call whose RPC answers `-EINVAL` returns `-EINVAL`, takes the
counter to 2, and leaves the scanner pending with delay 100, not 0. -/
theorem flush_tx_keeps_earlier_delay_counterexample :
    ∃ w2 w3 e3, flush_machine_run sample_format (fw_const (-EINVAL)) 0 sample_world_enabled
        [flush_event.flush 7, flush_event.scan (fun _ => 0)] = some w2 ∧
      ef10ct_flush_tx_dma_channel (fw_const (-EINVAL)) w2 7 0 = Outcome.ret (-EINVAL) w3 ∧
      w3.nic.arch_extra.evq[0]? = some e3 ∧ e3.queues_flushing = 2 ∧
      e3.check_flushes = delayed_work.pending 100 :=
  ⟨{ nic := { self := 64, arch_extra := { evq_n := 2, evq :=
        [⟨64, 1, delayed_work.pending 100, 1048576, 4, 0⟩,
         ⟨0, 0, delayed_work.idle, 0, 0, -1⟩] } }
     dev := ()
     rpcs := [fini_txq_cmd 7] },
   { nic := { self := 64, arch_extra := { evq_n := 2, evq :=
        [⟨64, 2, delayed_work.pending 100, 1048576, 4, 0⟩,
         ⟨0, 0, delayed_work.idle, 0, 0, -1⟩] } }
     dev := ()
     rpcs := [fini_txq_cmd 7, fini_txq_cmd 7] },
   ⟨64, 2, delayed_work.pending 100, 1048576, 4, 0⟩,
   by decide, by decide, by decide, rfl, rfl⟩

/-- C23 (amended): for every status `rc` that the fini-TXQ RPC returns,
failures included, `ef10ct_flush_tx_dma_channel` returns exactly `rc`, applies
`atomic_inc` to the EVQ's `queues_flushing` (one more than before when the
counter is an `int` below `INT_MAX`) and calls `schedule_delayed_work` with
delay 0: afterwards the scanner is pending, with delay 0 if it was idle and
with its earlier delay if it was already pending. No other EVQ record changes. -/
theorem flush_tx_not_atomic_on_error {σ : Type} (ops : FwOps σ) (w : World σ)
    (dmaq evq : Nat) (e : efhw_nic_ef10ct_evq) (rc : Int) (d : σ)
    (he : w.nic.arch_extra.evq[evq]? = some e)
    (hrpc : ops w.dev (fini_txq_cmd dmaq) = some (rc, d)) :
    ∃ w1 e1, ef10ct_flush_tx_dma_channel ops w dmaq evq = Outcome.ret rc w1 ∧
      w1.nic.arch_extra.evq[evq]? = some e1 ∧
      e1.queues_flushing = wrap_int (e.queues_flushing + 1) ∧
      (INT_MIN ≤ e.queues_flushing → e.queues_flushing < INT_MAX →
        e1.queues_flushing = e.queues_flushing + 1) ∧
      e1.check_flushes = schedule_delayed_work e.check_flushes 0 ∧
      (e.check_flushes = delayed_work.idle → e1.check_flushes = delayed_work.pending 0) ∧
      (∀ dl, e.check_flushes = delayed_work.pending dl →
        e1.check_flushes = delayed_work.pending dl) ∧
      (∀ j, j ≠ evq → w1.nic.arch_extra.evq[j]? = w.nic.arch_extra.evq[j]?) ∧
      w1.rpcs = w.rpcs ++ [fini_txq_cmd dmaq] := by
  refine ⟨_, flush_requested_evq e, flush_step ops w dmaq evq e rc d he hrpc,
    getElem?_set_same _ _ _ _ he, rfl, ?_, rfl, ?_, ?_, ?_, rfl⟩
  · intro hlo hhi
    exact wrap_int_of_range _ (by omega) (by simp only [INT_MAX] at hhi ⊢; omega)
  · intro hidle
    show schedule_delayed_work e.check_flushes 0 = delayed_work.pending 0
    rw [hidle]; rfl
  · intro dl hdl
    show schedule_delayed_work e.check_flushes 0 = delayed_work.pending dl
    rw [hdl]; rfl
  · intro j hj
    exact getElem?_set_other _ _ _ _ hj

/-- Witness for C23 (amended): a flush on the freshly enabled EVQ 0 of the
sample adapter whose RPC answers `-EINVAL`. -/
theorem flush_tx_not_atomic_on_error_witness :
    ∃ w1 e1, ef10ct_flush_tx_dma_channel (fw_const (-EINVAL)) sample_world_unit 7 0
        = Outcome.ret (-EINVAL) w1 ∧
      w1.nic.arch_extra.evq[0]? = some e1 ∧ e1.queues_flushing = 1 ∧
      e1.check_flushes = delayed_work.pending 0 := by
  obtain ⟨w1, e1, h1, h2, _, h4, _, h6, _⟩ :=
    flush_tx_not_atomic_on_error (fw_const (-EINVAL)) sample_world_unit 7 0
      ⟨0, 0, delayed_work.idle, 0, 0, 0⟩ (-EINVAL) () rfl rfl
  exact ⟨w1, e1, h1, h2, h4 (by decide) (by decide), h6 rfl⟩

end Ef10ct
